import Mathlib

set_option maxRecDepth 10000

/-!
Verification development for the anchor-agent repository: a shallow embedding,
in Lean, of the persistence, job-bridge, crawling, media and text-processing
operations of the Node.js sources, together with theorems settling the stated
behavioural properties.

Conventions of the embedding:
* JS strings are Lean `String`s; low-level scanning is done on `String.data`
  (`List Char`), with the JS operations (`split`, `trim`, `endsWith`,
  `includes`, regex replacement) re-implemented faithfully on lists.
* Node `Buffer`s are `List Nat` (byte values).
* Fallible operations return `Except`; a thrown-and-caught JS exception is an
  `.error` value absorbed at the catch site.
* Database tables are lists of row structures; the supabase query-builder
  calls (`maybeSingle`, `update ... eq`, `insert`) are modelled by the
  corresponding list operations, including their error behaviour
  (multiple-row errors, primary-key violations).
-/

namespace AnchorAgent

/-! ## Shared string utilities (JS semantics) -/

/-- Whitespace recognised by the JS regex class and by `String.prototype.trim`:
space, tab, vertical tab, form feed, line terminators, NBSP, the Unicode
space separators, and the BOM. -/
def isJsWhitespace (c : Char) : Bool :=
  c = ' ' || c = '\t' || c = '\n' || c = '\r' || c.toNat = 11 || c.toNat = 12 ||
  c.toNat = 0xa0 || c.toNat = 0x1680 || (0x2000 ≤ c.toNat && c.toNat ≤ 0x200a) ||
  c.toNat = 0x2028 || c.toNat = 0x2029 || c.toNat = 0x202f || c.toNat = 0x205f ||
  c.toNat = 0x3000 || c.toNat = 0xfeff

/-- JS `String.prototype.split` with a single-character separator, on the
character list. -/
def splitChar (sep : Char) (l : List Char) : List (List Char) :=
  l.foldr
    (fun c acc =>
      match acc with
      | [] => [[]]
      | cur :: rest => if c = sep then [] :: cur :: rest else (c :: cur) :: rest)
    [[]]

/-- JS `String.prototype.trim` on the character list: drop leading and
trailing whitespace. -/
def trimChars (l : List Char) : List Char :=
  ((l.dropWhile isJsWhitespace).reverse.dropWhile isJsWhitespace).reverse

/-- JS `String.prototype.trim`. -/
def jsTrim (s : String) : String :=
  String.mk (trimChars s.data)

/-- JS `String.prototype.split` with a single-character separator. -/
def jsSplit (sep : Char) (s : String) : List String :=
  (splitChar sep s.data).map String.mk

/-- JS `String.prototype.endsWith`. -/
def jsEndsWith (s tail : String) : Bool :=
  tail.data.isSuffixOf s.data

/-- JS `String.prototype.includes`: the needle occurs contiguously in `s`. -/
def jsIncludes (s sub : String) : Bool :=
  (List.range (s.data.length + 1)).any fun i => sub.data.isPrefixOf (s.data.drop i)

/-! ## cleanResponseText (server, `cleanResponseText`)

The source is
`text.replace(/\s*\[[^\]]*\]\s*/g, ' ').replace(/\s+/g, ' ').trim()`
guarded by `if (!text) return text`. The first regex is embedded as a
left-to-right scanner: at each position it attempts the anchored match
whitespace-run, `[`, longest `]`-free run, `]`, whitespace-run; on a match it
emits a single space and resumes after the match, otherwise it keeps the
character and moves on — exactly the semantics of a global `replace`. -/

/-- Length of the anchored match of `\s*\[[^\]]*\]\s*` at the head of `l`,
or `none` when the regex does not match there. -/
def bracketMatchLen (l : List Char) : Option Nat :=
  match l.drop (l.takeWhile isJsWhitespace).length with
  | '[' :: after =>
    match after.drop (after.takeWhile (fun c => c ≠ ']')).length with
    | ']' :: after2 =>
      some ((l.takeWhile isJsWhitespace).length + 1 +
            (after.takeWhile (fun c => c ≠ ']')).length + 1 +
            (after2.takeWhile isJsWhitespace).length)
    | _ => none
  | _ => none

/-- Fuel-indexed scanner for the global replacement of `\s*\[[^\]]*\]\s*`
by a single space, scanning left to right: a match of length `n` at the
current position is replaced by one space and scanning resumes after it
(a successful `bracketMatchLen` is at least 2, so the remainder
`(c :: cs).drop n` is `cs.drop (n - 1)`); otherwise the character is kept
and scanning moves one position. Every step consumes at least one
character, so `l.length` fuel always suffices; the zero-fuel branch is
unreachable from the wrapper. -/
def replaceBracketTagsAux : Nat → List Char → List Char
  | 0, l => l
  | _ + 1, [] => []
  | fuel + 1, c :: cs =>
    match bracketMatchLen (c :: cs) with
    | some n => ' ' :: replaceBracketTagsAux fuel (cs.drop (n - 1))
    | none => c :: replaceBracketTagsAux fuel cs

/-- Global replacement of `\s*\[[^\]]*\]\s*` by a single space. -/
def replaceBracketTags (l : List Char) : List Char :=
  replaceBracketTagsAux l.length l

/-- Fuel-indexed scanner for the global replacement of `\s+` by a single
space: each maximal whitespace run becomes one space. As above, `l.length`
fuel always suffices. -/
def normalizeWhitespaceAux : Nat → List Char → List Char
  | 0, l => l
  | _ + 1, [] => []
  | fuel + 1, c :: cs =>
    if isJsWhitespace c then
      ' ' :: normalizeWhitespaceAux fuel (cs.dropWhile isJsWhitespace)
    else c :: normalizeWhitespaceAux fuel cs

/-- Global replacement of `\s+` by a single space. -/
def normalizeWhitespace (l : List Char) : List Char :=
  normalizeWhitespaceAux l.length l

/-- The server's `cleanResponseText`: strip bracketed expression tags,
normalise whitespace, trim; the empty string (falsy in JS) is returned
unchanged. -/
def cleanResponseText (text : String) : String :=
  if text = "" then text
  else String.mk (trimChars (normalizeWhitespace (replaceBracketTags text.data)))

/-! ## Persona / Chat repository (`utils/db.js`)

The `personas` table has `id` as primary key and `name text not null`
(migration `20250102120100`), so a persona row always carries a non-null
id and name. The `chats` table has `id` as primary key and
`messages jsonb not null default []`. -/

/-- A persona row, restricted to the columns `saveConversation` reads. -/
structure Persona where
  id : String
  name : String
  deriving Repr, DecidableEq

/-- One message object inside a chat's `messages` array. Fields the source
only sets on some messages are `Option`s; `none` models an absent JSON key
(or an explicit `null` value). -/
structure Message where
  role : String
  content : String
  timestamp : String
  persona : Option String := none
  personaId : Option String := none
  audioUrl : Option String := none
  videoUrl : Option String := none
  deriving Repr, DecidableEq

/-- A chat row, restricted to the columns `saveConversation` touches. -/
structure Chat where
  id : String
  user_id : String
  persona_id : String
  title : String
  messages : List Message
  updated_at : String
  deriving Repr, DecidableEq

/-- The `chats` table. -/
abbrev ChatStore := List Chat

/-- The filter `.eq('id', chatId).eq('user_id', uid)` applied to one row. -/
def chatMatches (uid chatId : String) (c : Chat) : Bool :=
  c.id = chatId && c.user_id = uid

/-- The query `select('messages, persona_id').eq('id', chatId)
.eq('user_id', uid).maybeSingle()`: `none` when no row matches, the row when
exactly one does, and a thrown error when several match (impossible for a
table keyed on `id`, but part of `maybeSingle`'s contract). -/
def maybeSingleChat (store : ChatStore) (uid chatId : String) :
    Except String (Option Chat) :=
  match store.filter (chatMatches uid chatId) with
  | [] => .ok none
  | [c] => .ok (some c)
  | _ => .error "JSON object requested, multiple rows returned"

/-- Result of `saveConversation`: the table afterwards, and the chat row the
function returns (`none` models the `return null` of the catch-all). -/
structure SaveResult where
  store : ChatStore
  returned : Option Chat
  deriving Repr, DecidableEq

/-- `DatabaseService.saveConversation`. Builds the user message (with the
optional user-audio reference) and the assistant message (with persona
name/id and the media references), then either appends both to the matching
chat's message list, or inserts a fresh chat row seeded with exactly those
two messages. Database errors — a `maybeSingle` multi-row error, or a
primary-key violation when inserting an id that exists under another user —
are caught and yield `returned = none` with the table unchanged. `now` is
the value of `new Date().toISOString()`. -/
def saveConversation (store : ChatStore) (uid chatId userMessage responseText : String)
    (selectedPersona : Persona) (audioUrl userAudioUrl videoUrl : Option String)
    (now : String) : SaveResult :=
  let newMessage : Message :=
    { role := "user", content := userMessage, timestamp := now,
      audioUrl := userAudioUrl }
  let assistantMessage : Message :=
    { role := "assistant", content := responseText, timestamp := now,
      persona := some selectedPersona.name, personaId := some selectedPersona.id,
      audioUrl := audioUrl, videoUrl := videoUrl }
  match maybeSingleChat store uid chatId with
  | .error _ => { store := store, returned := none }
  | .ok (some existingChat) =>
    let updatedMessages := existingChat.messages ++ [newMessage, assistantMessage]
    { store := store.map fun c =>
        if chatMatches uid chatId c then
          { c with messages := updatedMessages, updated_at := now }
        else c,
      returned :=
        some { existingChat with messages := updatedMessages, updated_at := now } }
  | .ok none =>
    if store.any (fun c => c.id = chatId) then
      { store := store, returned := none }
    else
      let newChat : Chat :=
        { id := chatId, user_id := uid, persona_id := selectedPersona.id,
          title := "Chat with " ++ selectedPersona.name,
          messages := [newMessage, assistantMessage], updated_at := now }
      { store := store ++ [newChat], returned := some newChat }

/-- The messages of the (unique) chat matched by `(uid, chatId)` before the
save, or `[]` when the chat does not exist yet. -/
def priorMessages (store : ChatStore) (uid chatId : String) : List Message :=
  match store.filter (chatMatches uid chatId) with
  | c :: _ => c.messages
  | [] => []

/-! ## Job Bridge (`utils/ComfyUI.js`) -/

/-- One entry of the server's `node_errors` object. `dependent_outputs` is
`none` when the key is absent from the JSON. -/
structure NodeError where
  class_type : String := ""
  dependent_outputs : Option (List String) := none
  deriving Repr, DecidableEq

/-- Body of the `/prompt` submission response. Either field may be absent. -/
structure SubmitResponse where
  prompt_id : Option String := none
  node_errors : Option (List (String × NodeError)) := none
  deriving Repr, DecidableEq

/-- The ways `ComfyUI.queue` can reject. -/
inductive QueueError where
  /-- `throw new Error` on a non-ok HTTP status. -/
  | httpStatus (status : Nat)
  /-- The TypeError thrown by `Object.values(responseData.node_errors)`
  when `node_errors` is absent, caught and passed to `reject`. -/
  | typeError
  /-- The explicit rejection `new Error('Save node affected by errors.')`. -/
  | saveNodeAffected
  deriving Repr, DecidableEq

/-- Observable outcome of one `ComfyUI.queue` call. -/
structure QueueOutcome where
  result : Except QueueError SubmitResponse
  promptId : Option String
  interruptIssued : Bool
  deriving Repr

/-- The check
`Object.values(responseData.node_errors).some(ne => ne.dependent_outputs?.some(o => this.nodes.api_save.includes(o)))`:
some node error lists a dependent output that is one of the configured
`api_save` nodes. -/
def saveNodeAffectedCheck (api_save : List String)
    (node_errors : List (String × NodeError)) : Bool :=
  node_errors.any fun entry =>
    (entry.2.dependent_outputs.getD []).any fun output => api_save.contains output

/-- `ComfyUI.queue`, given the HTTP status of the `/prompt` POST and its
parsed body. On a non-ok response the thrown error is caught and rejected.
Otherwise `this.promptId` is set from the response; then the unguarded
`Object.values(responseData.node_errors)` throws a TypeError whenever
`node_errors` is absent (rejecting the promise); with `node_errors` present,
if the save node is affected the bridge calls `this.interupt()` and rejects,
else it resolves with the response body. -/
def queue (api_save : List String) (httpOk : Bool) (httpStatus : Nat)
    (responseData : SubmitResponse) : QueueOutcome :=
  if !httpOk then
    { result := .error (.httpStatus httpStatus), promptId := none,
      interruptIssued := false }
  else
    let pid := responseData.prompt_id
    match responseData.node_errors with
    | none =>
      { result := .error .typeError, promptId := pid, interruptIssued := false }
    | some errs =>
      if saveNodeAffectedCheck api_save errs then
        { result := .error .saveNodeAffected, promptId := pid,
          interruptIssued := true }
      else
        { result := .ok responseData, promptId := pid, interruptIssued := false }

/-- A typed WebSocket message as seen by `connect`'s `onmessage` handler,
restricted to the fields the dispatch logic reads. -/
structure WSMessage where
  type : String
  prompt_id : Option String := none
  node : Option String := none
  deriving Repr, DecidableEq

/-- Whether one incoming message makes the `onmessage` handler invoke
`onSaveCallback`: the message must carry this bridge's prompt id, be of type
`executed`, and name a node in `nodes.api_save`. -/
def firesSaveCallback (api_save : List String) (promptId : String)
    (m : WSMessage) : Bool :=
  m.prompt_id = some promptId && m.type = "executed" &&
    (match m.node with
     | some n => api_save.contains n
     | none => false)

/-- The messages of a trace that trigger the save callback. -/
def saveCallbackInvocations (api_save : List String) (promptId : String)
    (trace : List WSMessage) : List WSMessage :=
  trace.filter (firesSaveCallback api_save promptId)

/-! ## Chat-turn video stage and response assembly (server,
`POST /api/chat/text` and `POST /api/chat/audio`)

The block `if (videoEnabled && audioUrl) { try { ... } catch (videoError)
{ continue } }` is embedded as a total function over the outcomes of its
network effects: `audioFetch` is the fetch of the generated audio from the
object store, `imageUrl`/`imageFetch` the persona image reference and its
fetch, and `generateVideo` the Job Bridge call. Every throw inside the block
is absorbed by one of the two catches, leaving `videoUrl` null. -/

/-- Outcome of the video-generation block: whether its guard fired and the
video reference it produced (if any). -/
structure VideoBlockOutcome where
  attempted : Bool
  videoUrl : Option String
  deriving Repr, DecidableEq

/-- The video-generation block of the chat endpoints. The guard is
`videoEnabled && audioUrl`; inside, an audio-fetch failure aborts via the
outer catch; a missing persona image, a failed image fetch, or an image
buffer under 1000 bytes leaves `personaImageBuffer` null so `generateVideo`
is never called; a `generateVideo` failure is absorbed by the outer catch. -/
def videoGenerationBlock (videoEnabled : Bool) (audioUrl : Option String)
    (audioFetch : Except String (List Nat)) (imageUrl : Option String)
    (imageFetch : Except String (List Nat))
    (generateVideo : Except String String) : VideoBlockOutcome :=
  if videoEnabled && audioUrl.isSome then
    { attempted := true,
      videoUrl :=
        match audioFetch with
        | .error _ => none
        | .ok _ =>
          let personaImageBuffer : Option (List Nat) :=
            match imageUrl with
            | none => none
            | some _ =>
              match imageFetch with
              | .error _ => none
              | .ok buf => if buf.length < 1000 then none else some buf
          match personaImageBuffer with
          | none => none
          | some _ =>
            match generateVideo with
            | .ok videoKey => some videoKey
            | .error _ => none }
  else { attempted := false, videoUrl := none }

/-- The signed URLs sent to the frontend. The source signs assistant audio,
user audio, then video inside one `try`; a failure leaves the remaining
slots at their initial `null`. -/
structure SignedUrls where
  audioUrl : Option String
  userAudioUrl : Option String
  videoUrl : Option String
  deriving Repr, DecidableEq

/-- The signing block of the chat endpoints (`try { if (audioUrl) ...;
if (userAudioUrl) ...; if (videoUrl) ...; } catch { continue }`). -/
def signUrlsBlock (sign : String → Except String String)
    (audioUrl userAudioUrl videoUrl : Option String) : SignedUrls :=
  match audioUrl with
  | some k =>
    match sign k with
    | .error _ => { audioUrl := none, userAudioUrl := none, videoUrl := none }
    | .ok sa =>
      match userAudioUrl with
      | some k2 =>
        match sign k2 with
        | .error _ => { audioUrl := some sa, userAudioUrl := none, videoUrl := none }
        | .ok su =>
          match videoUrl with
          | some k3 =>
            match sign k3 with
            | .error _ =>
              { audioUrl := some sa, userAudioUrl := some su, videoUrl := none }
            | .ok sv =>
              { audioUrl := some sa, userAudioUrl := some su, videoUrl := some sv }
          | none => { audioUrl := some sa, userAudioUrl := some su, videoUrl := none }
      | none =>
        match videoUrl with
        | some k3 =>
          match sign k3 with
          | .error _ => { audioUrl := some sa, userAudioUrl := none, videoUrl := none }
          | .ok sv => { audioUrl := some sa, userAudioUrl := none, videoUrl := some sv }
        | none => { audioUrl := some sa, userAudioUrl := none, videoUrl := none }
  | none =>
    match userAudioUrl with
    | some k2 =>
      match sign k2 with
      | .error _ => { audioUrl := none, userAudioUrl := none, videoUrl := none }
      | .ok su =>
        match videoUrl with
        | some k3 =>
          match sign k3 with
          | .error _ => { audioUrl := none, userAudioUrl := some su, videoUrl := none }
          | .ok sv => { audioUrl := none, userAudioUrl := some su, videoUrl := some sv }
        | none => { audioUrl := none, userAudioUrl := some su, videoUrl := none }
    | none =>
      match videoUrl with
      | some k3 =>
        match sign k3 with
        | .error _ => { audioUrl := none, userAudioUrl := none, videoUrl := none }
        | .ok sv => { audioUrl := none, userAudioUrl := none, videoUrl := some sv }
      | none => { audioUrl := none, userAudioUrl := none, videoUrl := none }

/-- The JSON body returned by the chat endpoints. -/
structure ChatTurnResponse where
  transcribedText : String
  responseText : String
  audioUrl : Option String
  userAudioUrl : Option String
  videoUrl : Option String
  chatId : String
  deriving Repr, DecidableEq

/-- The tail of a chat turn after audio generation: run the
video-generation block, save the conversation (best effort), clean the raw
reply for display, sign the media references, and assemble the `res.json`
body. `savedChatId` is `savedChat?.id`. -/
def chatTurnFinish (message rawResponseText : String)
    (audioUrl userAudioUrl : Option String) (video : VideoBlockOutcome)
    (sign : String → Except String String) (savedChatId : Option String)
    (currentChatId : String) : ChatTurnResponse :=
  let signed := signUrlsBlock sign audioUrl userAudioUrl video.videoUrl
  { transcribedText := message,
    responseText := cleanResponseText rawResponseText,
    audioUrl := signed.audioUrl,
    userAudioUrl := signed.userAudioUrl,
    videoUrl := signed.videoUrl,
    chatId := savedChatId.getD currentChatId }

/-! ## Media-key endpoints (server, `GET /api/audio/sign/:s3Key` and
`GET /api/audio/s3/*`) -/

/-- Outcome of an HTTP handler: a payload, or an error response with its
status code. -/
inductive HttpOutcome (α : Type) where
  | ok (value : α)
  | clientError (status : Nat) (message : String)
  | upstreamError (status : Nat)
  | serverError (status : Nat) (message : String)
  deriving Repr, DecidableEq

/-- The key validation shared by both endpoints:
`keyParts.length !== 3 || !keyParts[2].endsWith('.pcm')` rejects. -/
def validAudioKeyCheck (s3Key : String) : Bool :=
  let keyParts := jsSplit '/' s3Key
  keyParts.length = 3 && jsEndsWith (keyParts.getD 2 "") ".pcm"

/-- The documented media-key shape `{ownerId}/{chatId}/{uuid}.pcm|.mp4`:
exactly three path segments whose last has a `.pcm` or `.mp4` extension. -/
def mediaKeyShape (s3Key : String) : Bool :=
  let keyParts := jsSplit '/' s3Key
  keyParts.length = 3 &&
    (jsEndsWith (keyParts.getD 2 "") ".pcm" || jsEndsWith (keyParts.getD 2 "") ".mp4")

/-- `GET /api/audio/sign/:s3Key`: reject malformed keys with 400, otherwise
return the signed URL (500 when signing throws). -/
def signAudioEndpoint (sign : String → Except String String) (s3Key : String) :
    HttpOutcome String :=
  if !validAudioKeyCheck s3Key then
    .clientError 400 "Invalid S3 key format"
  else
    match sign s3Key with
    | .ok signedUrl => .ok signedUrl
    | .error _ => .serverError 500 "Failed to generate signed URL"

/-- `GET /api/audio/s3/*`: reject malformed keys with 400, otherwise sign,
fetch from the object store (propagating a non-ok upstream status), and
stream the bytes; any throw yields 500. -/
def proxyAudioEndpoint (sign : String → Except String String)
    (fetchS3 : String → Except String (Bool × Nat × List Nat)) (s3Key : String) :
    HttpOutcome (List Nat) :=
  if !validAudioKeyCheck s3Key then
    .clientError 400 "Invalid S3 key format"
  else
    match sign s3Key with
    | .error _ => .serverError 500 "Failed to proxy audio file from S3"
    | .ok signedUrl =>
      match fetchS3 signedUrl with
      | .error _ => .serverError 500 "Failed to proxy audio file from S3"
      | .ok (respOk, status, body) =>
        if !respOk then .upstreamError status else .ok body

/-! ## PCM-to-WAV conversion (`utils/videoGeneration.js`,
`convertPCMToWAV`) -/

/-- The four little-endian bytes `Buffer.writeUInt32LE` stores. -/
def u32leBytes (v : Nat) : List Nat :=
  [v % 256, v / 256 % 256, v / 65536 % 256, v / 16777216 % 256]

/-- The two little-endian bytes `Buffer.writeUInt16LE` stores. -/
def u16leBytes (v : Nat) : List Nat :=
  [v % 256, v / 256 % 256]

/-- Byte values of an ASCII tag written with `Buffer.write`. -/
def asciiBytes (s : String) : List Nat :=
  s.data.map Char.toNat

/-- Read back a little-endian 32-bit value at a byte offset. -/
def readU32LE (l : List Nat) (off : Nat) : Nat :=
  l.getD off 0 + 256 * l.getD (off + 1) 0 + 65536 * l.getD (off + 2) 0 +
    16777216 * l.getD (off + 3) 0

/-- Read back a little-endian 16-bit value at a byte offset. -/
def readU16LE (l : List Nat) (off : Nat) : Nat :=
  l.getD off 0 + 256 * l.getD (off + 1) 0

/-- `VideoGenerationService.convertPCMToWAV`: prepend a 44-byte RIFF/WAVE
header for 16-bit mono PCM at 24000 Hz to the input bytes. Node's
`writeUInt32LE` throws `ERR_OUT_OF_RANGE` for values outside `[0, 2^32)`;
`fileSize = 36 + dataSize` is the only written value that can be out of
range (every other field is a constant and `dataSize < fileSize`), so the
single range check guards the whole construction. The byte layout follows
the source's write offsets 0,4,8,12,16,20,22,24,28,32,34,36,40 in order. -/
def convertPCMToWAV (pcmBuffer : List Nat) : Except String (List Nat) :=
  let sampleRate := 24000
  let numChannels := 1
  let bitsPerSample := 16
  let byteRate := sampleRate * numChannels * bitsPerSample / 8
  let blockAlign := numChannels * bitsPerSample / 8
  let dataSize := pcmBuffer.length
  let fileSize := 36 + dataSize
  if fileSize < 4294967296 then
    .ok (asciiBytes "RIFF" ++ u32leBytes fileSize ++ asciiBytes "WAVE" ++
         asciiBytes "fmt " ++ u32leBytes 16 ++ u16leBytes 1 ++
         u16leBytes numChannels ++ u32leBytes sampleRate ++ u32leBytes byteRate ++
         u16leBytes blockAlign ++ u16leBytes bitsPerSample ++ asciiBytes "data" ++
         u32leBytes dataSize ++ pcmBuffer)
  else .error "ERR_OUT_OF_RANGE"

/-- The byte list `convertPCMToWAV` produces on its success path (a named
abbreviation of the branch payload, used to state header lemmas). -/
def wavBytes (pcmBuffer : List Nat) : List Nat :=
  asciiBytes "RIFF" ++ u32leBytes (36 + pcmBuffer.length) ++ asciiBytes "WAVE" ++
    asciiBytes "fmt " ++ u32leBytes 16 ++ u16leBytes 1 ++ u16leBytes 1 ++
    u32leBytes 24000 ++ u32leBytes 48000 ++ u16leBytes 2 ++ u16leBytes 16 ++
    asciiBytes "data" ++ u32leBytes pcmBuffer.length ++ pcmBuffer

/-! ## Crawl-status polling loop (`utils/brightdata.js`,
`waitForCrawlCompletion`) -/

/-- What one poll of the snapshot endpoint amounts to for the loop's control
flow: a completed snapshot whose data payload is `payload`, a failed
snapshot, or any other (pending) status. -/
inductive SnapshotPoll where
  | completed (payload : String)
  | failed (errMsg : String)
  | pending (status : String)
  deriving Repr, DecidableEq

/-- `const maxWaitTime = 45000`. -/
def maxWaitTime : Nat := 45000

/-- `const pollInterval = 3000`. -/
def pollInterval : Nat := 3000

/-- Result of the polling loop together with the number of polls issued. -/
structure CrawlWait where
  result : Except String String
  polls : Nat
  deriving Repr

/-- The `while (Date.now() - startTime < maxWaitTime)` loop of
`waitForCrawlCompletion`: while under the deadline, poll; a completed
snapshot returns its data payload, a failed snapshot throws, and any other
status sleeps `pollInterval` (plus whatever time `delay` says the network
round-trip itself took) and retries. Once the deadline passes, the loop
exits and throws the timeout error. `poll k` is the `k`-th status response
and `delay k` the extra elapsed time of iteration `k` beyond the sleep. -/
def waitForCrawlCompletion (poll : Nat → SnapshotPoll) (delay : Nat → Nat)
    (k : Nat) (elapsed : Nat) : CrawlWait :=
  if elapsed < maxWaitTime then
    match poll k with
    | .completed payload => { result := .ok payload, polls := k + 1 }
    | .failed e => { result := .error ("Crawl failed: " ++ e), polls := k + 1 }
    | .pending _ =>
      waitForCrawlCompletion poll delay (k + 1) (elapsed + pollInterval + delay k)
  else
    { result := .error "Crawl timeout: Results not ready within 60 seconds",
      polls := k }
termination_by maxWaitTime - elapsed
decreasing_by
  simp only [maxWaitTime, pollInterval] at *
  omega

/-! ## JSON values and `JSON.parse` (platform primitive used by
`waitForCrawlCompletion`)

The crawl code parses payload text with the host's `JSON.parse`; the
embedding supplies a concrete RFC 8259 recursive-descent reading. Numbers
keep their lexeme (their numeric value is never used by the code under
study); `\u` escapes decode code unit by code unit. -/

/-- A parsed JSON value. -/
inductive Json where
  | null
  | bool (b : Bool)
  | num (lexeme : String)
  | str (s : String)
  | arr (elems : List Json)
  | obj (fields : List (String × Json))
  deriving Repr

/-- JSON inter-token whitespace: space, tab, line feed, carriage return. -/
def isJsonWs (c : Char) : Bool :=
  c = ' ' || c = '\t' || c = '\n' || c = '\r'

/-- Skip JSON whitespace. -/
def skipJsonWs (l : List Char) : List Char :=
  l.dropWhile isJsonWs

/-- Value of a hexadecimal digit. -/
def hexVal (c : Char) : Option Nat :=
  if '0' ≤ c && c ≤ '9' then some (c.toNat - 48)
  else if 'a' ≤ c && c ≤ 'f' then some (c.toNat - 87)
  else if 'A' ≤ c && c ≤ 'F' then some (c.toNat - 55)
  else none

/-- Parse the body of a JSON string after the opening quote, returning the
decoded characters and the rest of the input after the closing quote.
Raw control characters are rejected, escapes are decoded. -/
def parseStringBody (l : List Char) : Option (List Char × List Char) :=
  match l with
  | [] => none
  | '"' :: rest => some ([], rest)
  | '\\' :: '"' :: rest => (parseStringBody rest).map fun p => ('"' :: p.1, p.2)
  | '\\' :: '\\' :: rest => (parseStringBody rest).map fun p => ('\\' :: p.1, p.2)
  | '\\' :: '/' :: rest => (parseStringBody rest).map fun p => ('/' :: p.1, p.2)
  | '\\' :: 'b' :: rest =>
    (parseStringBody rest).map fun p => (Char.ofNat 8 :: p.1, p.2)
  | '\\' :: 'f' :: rest =>
    (parseStringBody rest).map fun p => (Char.ofNat 12 :: p.1, p.2)
  | '\\' :: 'n' :: rest => (parseStringBody rest).map fun p => ('\n' :: p.1, p.2)
  | '\\' :: 'r' :: rest => (parseStringBody rest).map fun p => ('\r' :: p.1, p.2)
  | '\\' :: 't' :: rest => (parseStringBody rest).map fun p => ('\t' :: p.1, p.2)
  | '\\' :: 'u' :: h1 :: h2 :: h3 :: h4 :: rest =>
    match hexVal h1, hexVal h2, hexVal h3, hexVal h4 with
    | some a, some b, some c, some d =>
      (parseStringBody rest).map fun p =>
        (Char.ofNat (4096 * a + 256 * b + 16 * c + d) :: p.1, p.2)
    | _, _, _, _ => none
  | '\\' :: _ => none
  | c :: rest =>
    if c.toNat < 32 then none
    else (parseStringBody rest).map fun p => (c :: p.1, p.2)

/-- Parse an optional fraction part `.digits`. -/
def parseFracPart (l : List Char) : Option (List Char × List Char) :=
  match l with
  | '.' :: t =>
    let ds := t.takeWhile Char.isDigit
    if ds = [] then none else some ('.' :: ds, t.dropWhile Char.isDigit)
  | _ => some ([], l)

/-- Parse an optional exponent part `[eE][+-]?digits`. -/
def parseExpPart (l : List Char) : Option (List Char × List Char) :=
  match l with
  | c :: t =>
    if c = 'e' || c = 'E' then
      let signAndRest : List Char × List Char :=
        match t with
        | '+' :: u => (['+'], u)
        | '-' :: u => (['-'], u)
        | _ => ([], t)
      let ds := signAndRest.2.takeWhile Char.isDigit
      if ds = [] then none
      else some (c :: signAndRest.1 ++ ds, signAndRest.2.dropWhile Char.isDigit)
    else some ([], l)
  | [] => some ([], [])

/-- Parse a JSON number lexeme `-?(0|[1-9][0-9]*)(\.[0-9]+)?([eE][+-]?[0-9]+)?`. -/
def parseNumberLex (l : List Char) : Option (List Char × List Char) :=
  let signAndRest : List Char × List Char :=
    match l with
    | '-' :: t => (['-'], t)
    | _ => ([], l)
  let intPart := signAndRest.2.takeWhile Char.isDigit
  match intPart with
  | [] => none
  | d :: ds =>
    if d = '0' && ds ≠ [] then none
    else
      match parseFracPart (signAndRest.2.dropWhile Char.isDigit) with
      | none => none
      | some (frac, l2) =>
        match parseExpPart l2 with
        | none => none
        | some (ex, l3) => some (signAndRest.1 ++ intPart ++ frac ++ ex, l3)

mutual

/-- Parse one JSON value (fuel-indexed recursive descent). -/
def parseJsonVal : Nat → List Char → Option (Json × List Char)
  | 0, _ => none
  | fuel + 1, l =>
    match skipJsonWs l with
    | 'n' :: 'u' :: 'l' :: 'l' :: rest => some (.null, rest)
    | 't' :: 'r' :: 'u' :: 'e' :: rest => some (.bool true, rest)
    | 'f' :: 'a' :: 'l' :: 's' :: 'e' :: rest => some (.bool false, rest)
    | '"' :: rest =>
      (parseStringBody rest).map fun p => (.str (String.mk p.1), p.2)
    | '[' :: rest =>
      match skipJsonWs rest with
      | ']' :: rest2 => some (.arr [], rest2)
      | _ => (parseJsonArrayItems fuel rest).map fun p => (.arr p.1, p.2)
    | '{' :: rest =>
      match skipJsonWs rest with
      | '}' :: rest2 => some (.obj [], rest2)
      | _ => (parseJsonObjFields fuel rest).map fun p => (.obj p.1, p.2)
    | other =>
      (parseNumberLex other).map fun p => (.num (String.mk p.1), p.2)

/-- Parse the comma-separated items of a non-empty array up to `]`. -/
def parseJsonArrayItems : Nat → List Char → Option (List Json × List Char)
  | 0, _ => none
  | fuel + 1, l =>
    match parseJsonVal fuel l with
    | none => none
    | some (v, rest) =>
      match skipJsonWs rest with
      | ',' :: rest2 =>
        match parseJsonArrayItems fuel rest2 with
        | none => none
        | some (vs, rest3) => some (v :: vs, rest3)
      | ']' :: rest2 => some ([v], rest2)
      | _ => none

/-- Parse the comma-separated fields of a non-empty object up to the
closing brace. -/
def parseJsonObjFields : Nat → List Char → Option (List (String × Json) × List Char)
  | 0, _ => none
  | fuel + 1, l =>
    match skipJsonWs l with
    | '"' :: rest =>
      match parseStringBody rest with
      | none => none
      | some (key, rest2) =>
        match skipJsonWs rest2 with
        | ':' :: rest3 =>
          match parseJsonVal fuel rest3 with
          | none => none
          | some (v, rest4) =>
            match skipJsonWs rest4 with
            | ',' :: rest5 =>
              match parseJsonObjFields fuel rest5 with
              | none => none
              | some (fs, rest6) => some ((String.mk key, v) :: fs, rest6)
            | '}' :: rest5 => some ([(String.mk key, v)], rest5)
            | _ => none
        | _ => none
    | _ => none

end

/-- The platform's `JSON.parse`: parse one value and require only
whitespace to remain. The fuel `2 * length + 2` dominates the recursion
depth (every two nested calls consume at least one input character). -/
def jsonParse (s : String) : Option Json :=
  match parseJsonVal (2 * s.data.length + 2) s.data with
  | some (v, rest) => if skipJsonWs rest = [] then some v else none
  | none => none

/-- JS property access `v.prop` on a parsed JSON value: only objects have
data properties; later duplicate keys shadow earlier ones. -/
def getProp (v : Json) (key : String) : Option Json :=
  match v with
  | .obj fields => fields.reverse.lookup key
  | _ => none

/-- Truthiness of a parsed number lexeme: zero values are falsy, so the
number is truthy iff its mantissa has a nonzero digit. -/
def jsTruthyNum (lexeme : String) : Bool :=
  (lexeme.data.takeWhile fun c => c ≠ 'e' && c ≠ 'E').any
    fun c => c.isDigit && c ≠ '0'

/-- JS truthiness of the result of a property access on parsed JSON:
`undefined`, `null`, `false`, `0` and the empty string are falsy. -/
def jsTruthy (v : Option Json) : Bool :=
  match v with
  | none => false
  | some .null => false
  | some (.bool b) => b
  | some (.str s) => !(s = "")
  | some (.num lexeme) => jsTruthyNum lexeme
  | some (.arr _) => true
  | some (.obj _) => true

/-! ## The direct-data branch of `waitForCrawlCompletion`
(`utils/brightdata.js` lines 463–484) -/

/-- The body of the per-line loop: `JSON.parse(line.trim())` inside a
`try` (a parse failure skips the line), then `if (post.post_id)
allPosts.push(post)`. -/
def lineRecord (line : String) : Option Json :=
  match jsonParse (jsTrim line) with
  | none => none
  | some post => if jsTruthy (getProp post "post_id") then some post else none

/-- The direct-data branch applied to the (already trimmed) response text:
`jsonText.split('\n').filter(line => line.trim())`, then the per-line
parse-and-keep loop. -/
def parseDirectPosts (jsonText : String) : List Json :=
  ((jsSplit '\n' jsonText).filter fun line => !(jsTrim line = "")).filterMap
    lineRecord

/-- The status-response handling up to the direct-data branch:
`jsonText = responseText.trim()`; when it contains `"post_id"` the branch
returns its posts (`some`), otherwise control falls through to the
status-object handling (`none`). -/
def statusDirectPosts (responseText : String) : Option (List Json) :=
  let jsonText := jsTrim responseText
  if jsIncludes jsonText "\"post_id\"" then some (parseDirectPosts jsonText)
  else none

/-- What `crawlRedditNews` returns for a given location. -/
structure CrawlNewsResult where
  success : Bool
  location : String
  articles : List Json
  deriving Repr

/-- The outer try/catch of `crawlRedditNews`: the crawl pipeline
(configuration check, trigger call, `waitForCrawlCompletion`) either
produces the raw results, which are processed into articles, or throws —
and every throw is caught and turned into a `success: false` result with an
empty article list. `process` abstracts `processRedditResults`. -/
def crawlRedditNews (location : String)
    (pipelineOutcome : Except String (List Json))
    (process : List Json → List Json) : CrawlNewsResult :=
  match pipelineOutcome with
  | .ok results =>
    { success := true, location := location, articles := process results }
  | .error _ => { success := false, location := location, articles := [] }

/-- Join pieces with newline separators (the shape of an NDJSON payload). -/
def joinLines : List String → String
  | [] => ""
  | [p] => p
  | p :: ps => p ++ "\n" ++ joinLines ps

/-! ## Predicates used to reason about `cleanResponseText` -/

/-- Whether the list contains an opening bracket with a closing bracket
somewhere after it — exactly when `\s*\[[^\]]*\]\s*` can match at some
position. -/
def hasBracketPair : List Char → Bool
  | [] => false
  | c :: cs => (c = '[' && cs.contains ']') || hasBracketPair cs

/-- Shape of `normalizeWhitespace` output: every whitespace character is a
plain space, and no two whitespace characters are adjacent. -/
def WsNormed (l : List Char) : Prop :=
  (∀ c ∈ l, isJsWhitespace c = true → c = ' ') ∧
    l.Chain' fun a b => ¬(isJsWhitespace a = true ∧ isJsWhitespace b = true)

/-! ## Concrete sample data used by witnesses -/

/-- A sample persona row. -/
def samplePersona : Persona := { id := "p1", name := "Alice" }

/-- A sample pre-existing chat row with one stored message. -/
def sampleChat : Chat :=
  { id := "c1", user_id := "u1", persona_id := "p1", title := "t",
    messages := [{ role := "user", content := "old", timestamp := "t0" }],
    updated_at := "t0" }

/-- A sample chats table holding just `sampleChat`. -/
def sampleStore : ChatStore := [sampleChat]

/-! # Theorems -/

/-! ## saveConversation: appended turn pair and upsert behaviour -/

/-- Record updates used by the update branch do not change the key fields,
so the row filter is invariant under them. -/
lemma chatMatches_update (uid chatId : String) (c : Chat) (m : List Message)
    (t : String) :
    chatMatches uid chatId { c with messages := m, updated_at := t } =
      chatMatches uid chatId c := rfl

/-- The `(id, user_id)` filter refines the `id` filter, so a table with at
most one row per id has at most one row per `(id, user_id)`. -/
lemma length_filter_chatMatches_le (store : ChatStore) (uid chatId : String) :
    (store.filter (chatMatches uid chatId)).length ≤
      (store.filter fun c => c.id = chatId).length := by
  induction store with
  | nil => simp
  | cons c cs ih =>
    by_cases hid : c.id = chatId
    · by_cases huid : c.user_id = uid
      · simp [chatMatches, hid, huid]
        omega
      · simp [chatMatches, hid, huid]
        omega
    · simp [chatMatches, hid]
      exact ih

/-- Full behavioural description of `saveConversation` for a wellformed
table: at most one row carries the target chat id (`h1`, the primary key on
`chats.id`) and any row with that id belongs to this user (`h2`). The saved
chat is returned and is the unique `(uid, chatId)` row afterwards; its
message list is the prior messages (empty for a fresh chat) followed by
exactly the user message and the assistant message; rows of other chats are
untouched; and the table grows by one row exactly when the chat was new. -/
lemma saveConversation_spec (store : ChatStore) (uid chatId um rt : String)
    (p : Persona) (au uau vu : Option String) (now : String)
    (h1 : (store.filter fun c => c.id = chatId).length ≤ 1)
    (h2 : ∀ c ∈ store, c.id = chatId → c.user_id = uid) :
    ∃ saved : Chat,
      (saveConversation store uid chatId um rt p au uau vu now).returned =
        some saved ∧
      (saveConversation store uid chatId um rt p au uau vu now).store.filter
        (chatMatches uid chatId) = [saved] ∧
      saved.messages = priorMessages store uid chatId ++
        [{ role := "user", content := um, timestamp := now, audioUrl := uau },
         { role := "assistant", content := rt, timestamp := now,
           persona := some p.name, personaId := some p.id,
           audioUrl := au, videoUrl := vu }] ∧
      (∀ c ∈ store, chatMatches uid chatId c = false →
        c ∈ (saveConversation store uid chatId um rt p au uau vu now).store) ∧
      (saveConversation store uid chatId um rt p au uau vu now).store.length =
        (if store.filter (chatMatches uid chatId) = [] then store.length + 1
         else store.length) := by
  cases hf : store.filter (chatMatches uid chatId) with
  | nil =>
    have hany : store.any (fun c => c.id = chatId) = false := by
      by_contra hny
      rw [Bool.not_eq_false, List.any_eq_true] at hny
      obtain ⟨c, hc, hcid⟩ := hny
      have hcid' : c.id = chatId := by simpa using hcid
      have hmem : c ∈ store.filter (chatMatches uid chatId) := by
        rw [List.mem_filter]
        exact ⟨hc, by simp [chatMatches, hcid', h2 c hc hcid']⟩
      rw [hf] at hmem
      exact absurd hmem (List.not_mem_nil c)
    have hsave : saveConversation store uid chatId um rt p au uau vu now =
        { store := store ++
            [{ id := chatId, user_id := uid, persona_id := p.id,
               title := "Chat with " ++ p.name,
               messages :=
                 [{ role := "user", content := um, timestamp := now,
                    audioUrl := uau },
                  { role := "assistant", content := rt, timestamp := now,
                    persona := some p.name, personaId := some p.id,
                    audioUrl := au, videoUrl := vu }],
               updated_at := now }],
          returned :=
            some { id := chatId, user_id := uid, persona_id := p.id,
                   title := "Chat with " ++ p.name,
                   messages :=
                     [{ role := "user", content := um, timestamp := now,
                        audioUrl := uau },
                      { role := "assistant", content := rt, timestamp := now,
                        persona := some p.name, personaId := some p.id,
                        audioUrl := au, videoUrl := vu }],
                   updated_at := now } } := by
      simp only [saveConversation, maybeSingleChat, hf, hany]
      rfl
    refine ⟨{ id := chatId, user_id := uid, persona_id := p.id,
              title := "Chat with " ++ p.name,
              messages :=
                [{ role := "user", content := um, timestamp := now,
                   audioUrl := uau },
                 { role := "assistant", content := rt, timestamp := now,
                   persona := some p.name, personaId := some p.id,
                   audioUrl := au, videoUrl := vu }],
              updated_at := now }, ?_, ?_, ?_, ?_, ?_⟩
    · rw [hsave]
    · rw [hsave, List.filter_append, hf]
      simp [chatMatches]
    · simp [priorMessages, hf]
    · intro c hc _
      rw [hsave]
      exact List.mem_append_left _ hc
    · rw [hsave]
      simp
  | cons c0 tl =>
    cases tl with
    | nil =>
      have hc0 : c0 ∈ store.filter (chatMatches uid chatId) := by
        rw [hf]; exact List.mem_cons_self c0 []
      rw [List.mem_filter] at hc0
      have hsave : saveConversation store uid chatId um rt p au uau vu now =
          { store := store.map fun c =>
              if chatMatches uid chatId c then
                { c with
                  messages := c0.messages ++
                    [{ role := "user", content := um, timestamp := now,
                       audioUrl := uau },
                     { role := "assistant", content := rt, timestamp := now,
                       persona := some p.name, personaId := some p.id,
                       audioUrl := au, videoUrl := vu }],
                  updated_at := now }
              else c,
            returned :=
              some { c0 with
                     messages := c0.messages ++
                       [{ role := "user", content := um, timestamp := now,
                          audioUrl := uau },
                        { role := "assistant", content := rt, timestamp := now,
                          persona := some p.name, personaId := some p.id,
                          audioUrl := au, videoUrl := vu }],
                     updated_at := now } } := by
        simp only [saveConversation, maybeSingleChat, hf]
      refine ⟨{ c0 with
                messages := c0.messages ++
                  [{ role := "user", content := um, timestamp := now,
                     audioUrl := uau },
                   { role := "assistant", content := rt, timestamp := now,
                     persona := some p.name, personaId := some p.id,
                     audioUrl := au, videoUrl := vu }],
                updated_at := now }, ?_, ?_, ?_, ?_, ?_⟩
      · rw [hsave]
      · rw [hsave]
        simp only []
        rw [List.filter_map]
        have hpf : ∀ x : Chat,
            (chatMatches uid chatId
              (if chatMatches uid chatId x then
                { x with
                  messages := c0.messages ++
                    [{ role := "user", content := um, timestamp := now,
                       audioUrl := uau },
                     { role := "assistant", content := rt, timestamp := now,
                       persona := some p.name, personaId := some p.id,
                       audioUrl := au, videoUrl := vu }],
                  updated_at := now }
               else x)) = chatMatches uid chatId x := by
          intro x
          by_cases hx : chatMatches uid chatId x
          · simp only [hx, if_true]
            exact (chatMatches_update uid chatId x _ _).trans hx
          · simp [hx]
        simp only [Function.comp_def]
        rw [List.filter_congr fun x _ => hpf x, hf]
        simp [hc0.2]
      · simp [priorMessages, hf]
      · intro c hc hcf
        rw [hsave]
        refine List.mem_map.2 ⟨c, hc, ?_⟩
        simp [hcf]
      · rw [hsave]
        simp
    | cons c1 tl2 =>
      exfalso
      have := length_filter_chatMatches_le store uid chatId
      rw [hf] at this
      simp only [List.length_cons] at this
      omega

/-- C1: for every chat turn saved via `saveConversation` (against a table
wellformed for the target id: at most one row has it, and only for this
user), exactly two messages are appended — one with role `user` and one
with role `assistant`; the assistant message carries the persona name and
persona id (both non-null), and the user message carries no persona
attribution. -/
theorem saveConversation_turn_pair (store : ChatStore) (uid chatId um rt : String)
    (p : Persona) (au uau vu : Option String) (now : String)
    (h1 : (store.filter fun c => c.id = chatId).length ≤ 1)
    (h2 : ∀ c ∈ store, c.id = chatId → c.user_id = uid) :
    ∃ (saved : Chat) (userMsg assistantMsg : Message),
      (saveConversation store uid chatId um rt p au uau vu now).store.filter
        (chatMatches uid chatId) = [saved] ∧
      saved.messages = priorMessages store uid chatId ++ [userMsg, assistantMsg] ∧
      userMsg.role = "user" ∧ userMsg.persona = none ∧ userMsg.personaId = none ∧
      assistantMsg.role = "assistant" ∧
      assistantMsg.persona = some p.name ∧ assistantMsg.persona ≠ none ∧
      assistantMsg.personaId = some p.id ∧ assistantMsg.personaId ≠ none := by
  obtain ⟨saved, _, hfil, hmsg, _, _⟩ :=
    saveConversation_spec store uid chatId um rt p au uau vu now h1 h2
  exact ⟨saved, _, _, hfil, hmsg, rfl, rfl, rfl, rfl, rfl, by simp, rfl, by simp⟩

/-- Witness for C1 at a concrete input: an empty table, so the turn creates
the chat; the hypotheses hold and the appended pair satisfies the claim. -/
theorem saveConversation_turn_pair_witness :
    ((([] : ChatStore).filter fun c => c.id = "c1").length ≤ 1) ∧
    (∀ c ∈ ([] : ChatStore), c.id = "c1" → c.user_id = "u1") ∧
    (∃ (saved : Chat) (userMsg assistantMsg : Message),
      (saveConversation [] "u1" "c1" "hi" "hello" ⟨"p1", "Alice"⟩ none none none
        "t0").store.filter (chatMatches "u1" "c1") = [saved] ∧
      saved.messages = priorMessages [] "u1" "c1" ++ [userMsg, assistantMsg] ∧
      userMsg.role = "user" ∧ userMsg.persona = none ∧ userMsg.personaId = none ∧
      assistantMsg.role = "assistant" ∧
      assistantMsg.persona = some (Persona.mk "p1" "Alice").name ∧
      assistantMsg.persona ≠ none ∧
      assistantMsg.personaId = some (Persona.mk "p1" "Alice").id ∧
      assistantMsg.personaId ≠ none) :=
  ⟨by simp, by simp,
   saveConversation_turn_pair [] "u1" "c1" "hi" "hello" ⟨"p1", "Alice"⟩
     none none none "t0" (by simp) (by simp)⟩

/-- C2: `saveConversation` is an upsert-by-append. Against a wellformed
table, the resulting unique `(uid, chatId)` row holds the prior messages
(none when the chat id did not exist — the new chat is seeded with exactly
the two new messages) followed by exactly the new user and assistant
messages; every row of any other chat is kept; and the table gains one row
exactly when the chat was new. -/
theorem saveConversation_upsert (store : ChatStore) (uid chatId um rt : String)
    (p : Persona) (au uau vu : Option String) (now : String)
    (h1 : (store.filter fun c => c.id = chatId).length ≤ 1)
    (h2 : ∀ c ∈ store, c.id = chatId → c.user_id = uid) :
    ∃ saved : Chat,
      (saveConversation store uid chatId um rt p au uau vu now).returned =
        some saved ∧
      (saveConversation store uid chatId um rt p au uau vu now).store.filter
        (chatMatches uid chatId) = [saved] ∧
      saved.messages = priorMessages store uid chatId ++
        [{ role := "user", content := um, timestamp := now, audioUrl := uau },
         { role := "assistant", content := rt, timestamp := now,
           persona := some p.name, personaId := some p.id,
           audioUrl := au, videoUrl := vu }] ∧
      (store.filter (chatMatches uid chatId) = [] →
        priorMessages store uid chatId = []) ∧
      (∀ c ∈ store, chatMatches uid chatId c = false →
        c ∈ (saveConversation store uid chatId um rt p au uau vu now).store) ∧
      (saveConversation store uid chatId um rt p au uau vu now).store.length =
        (if store.filter (chatMatches uid chatId) = [] then store.length + 1
         else store.length) := by
  obtain ⟨saved, hret, hfil, hmsg, hpres, hlen⟩ :=
    saveConversation_spec store uid chatId um rt p au uau vu now h1 h2
  refine ⟨saved, hret, hfil, hmsg, ?_, hpres, hlen⟩
  intro hempty
  simp [priorMessages, hempty]

/-- Witness for C2 at a concrete input: a table holding one prior chat with
one message; the turn appends to it and keeps the prior message. -/
theorem saveConversation_upsert_witness :
    ((sampleStore.filter fun c => c.id = "c1").length ≤ 1) ∧
    (∀ c ∈ sampleStore, c.id = "c1" → c.user_id = "u1") ∧
    (∃ saved : Chat,
      (saveConversation sampleStore "u1" "c1" "hi" "hello" samplePersona
        none none none "t1").returned = some saved ∧
      (saveConversation sampleStore "u1" "c1" "hi" "hello" samplePersona
        none none none "t1").store.filter (chatMatches "u1" "c1") = [saved] ∧
      saved.messages = priorMessages sampleStore "u1" "c1" ++
        [{ role := "user", content := "hi", timestamp := "t1", audioUrl := none },
         { role := "assistant", content := "hello", timestamp := "t1",
           persona := some samplePersona.name,
           personaId := some samplePersona.id,
           audioUrl := none, videoUrl := none }] ∧
      (sampleStore.filter (chatMatches "u1" "c1") = [] →
        priorMessages sampleStore "u1" "c1" = []) ∧
      (∀ c ∈ sampleStore, chatMatches "u1" "c1" c = false →
        c ∈ (saveConversation sampleStore "u1" "c1" "hi" "hello" samplePersona
          none none none "t1").store) ∧
      (saveConversation sampleStore "u1" "c1" "hi" "hello" samplePersona
        none none none "t1").store.length =
        (if sampleStore.filter (chatMatches "u1" "c1") = []
         then sampleStore.length + 1 else sampleStore.length)) :=
  ⟨by decide, by decide,
   saveConversation_upsert sampleStore "u1" "c1" "hi" "hello" samplePersona
     none none none "t1" (by decide) (by decide)⟩

/-! ## convertPCMToWAV: header layout -/

/-- Byte values of the `RIFF` tag. -/
lemma asciiRIFF : asciiBytes "RIFF" = [82, 73, 70, 70] := rfl

/-- Byte values of the `WAVE` tag. -/
lemma asciiWAVE : asciiBytes "WAVE" = [87, 65, 86, 69] := rfl

/-- Byte values of the chunk tag `fmt ` (with trailing space). -/
lemma asciiFmt : asciiBytes "fmt " = [102, 109, 116, 32] := rfl

/-- Byte values of the `data` tag. -/
lemma asciiData : asciiBytes "data" = [100, 97, 116, 97] := rfl

/-- Little-endian bytes of the chunk size 16. -/
lemma u32le16 : u32leBytes 16 = [16, 0, 0, 0] := rfl

/-- Little-endian bytes of the sample rate 24000. -/
lemma u32le24000 : u32leBytes 24000 = [192, 93, 0, 0] := rfl

/-- Little-endian bytes of the byte rate 48000. -/
lemma u32le48000 : u32leBytes 48000 = [128, 187, 0, 0] := rfl

/-- Little-endian bytes of 1. -/
lemma u16le1 : u16leBytes 1 = [1, 0] := rfl

/-- Little-endian bytes of 2. -/
lemma u16le2 : u16leBytes 2 = [2, 0] := rfl

/-- Little-endian 16-bit bytes of 16. -/
lemma u16le16 : u16leBytes 16 = [16, 0] := rfl

/-- The four little-endian digits of an arbitrary value. -/
lemma u32leVar (n : Nat) :
    u32leBytes n = [n % 256, n / 256 % 256, n / 65536 % 256, n / 16777216 % 256] :=
  rfl

/-- The WAV output flattened to one 44-byte header chain followed by the
payload. -/
lemma wavBytes_flat (pcm : List Nat) : wavBytes pcm = 82 :: 73 :: 70 :: 70 ::
    ((36 + pcm.length) % 256) :: ((36 + pcm.length) / 256 % 256) ::
    ((36 + pcm.length) / 65536 % 256) :: ((36 + pcm.length) / 16777216 % 256) ::
    87 :: 65 :: 86 :: 69 :: 102 :: 109 :: 116 :: 32 :: 16 :: 0 :: 0 :: 0 ::
    1 :: 0 :: 1 :: 0 :: 192 :: 93 :: 0 :: 0 :: 128 :: 187 :: 0 :: 0 ::
    2 :: 0 :: 16 :: 0 :: 100 :: 97 :: 116 :: 97 ::
    (pcm.length % 256) :: (pcm.length / 256 % 256) :: (pcm.length / 65536 % 256) ::
    (pcm.length / 16777216 % 256) :: pcm := by
  rw [wavBytes, asciiRIFF, asciiWAVE, asciiFmt, asciiData, u32le16, u32le24000,
    u32le48000, u16le1, u16le2, u16le16, u32leVar, u32leVar]
  simp only [List.cons_append, List.nil_append, List.append_assoc]

/-- On the success path `convertPCMToWAV` returns `wavBytes`. -/
lemma convertPCMToWAV_ok (pcm : List Nat) (hc : 36 + pcm.length < 4294967296) :
    convertPCMToWAV pcm = .ok (wavBytes pcm) := by
  simp only [convertPCMToWAV]
  rw [if_pos hc]
  rfl

/-- Length of the WAV output. -/
lemma wavBytes_length (pcm : List Nat) :
    (wavBytes pcm).length = pcm.length + 44 := by
  rw [wavBytes_flat]
  simp

/-- First four bytes of the WAV output. -/
lemma wavBytes_take4 (pcm : List Nat) :
    (wavBytes pcm).take 4 = asciiBytes "RIFF" := by
  rw [wavBytes_flat]
  rfl

/-- RIFF size field at offset 4. -/
lemma wavBytes_riffSize (pcm : List Nat) (hc : 36 + pcm.length < 4294967296) :
    readU32LE (wavBytes pcm) 4 = 36 + pcm.length := by
  rw [wavBytes_flat]
  simp only [readU32LE, List.getD_cons_succ, List.getD_cons_zero]
  omega

/-- Audio-format field at offset 20 (1 = PCM). -/
lemma wavBytes_audioFormat (pcm : List Nat) :
    readU16LE (wavBytes pcm) 20 = 1 := by
  rw [wavBytes_flat]
  rfl

/-- Channel-count field at offset 22 (mono). -/
lemma wavBytes_numChannels (pcm : List Nat) :
    readU16LE (wavBytes pcm) 22 = 1 := by
  rw [wavBytes_flat]
  rfl

/-- Sample-rate field at offset 24. -/
lemma wavBytes_sampleRate (pcm : List Nat) :
    readU32LE (wavBytes pcm) 24 = 24000 := by
  rw [wavBytes_flat]
  simp only [readU32LE, List.getD_cons_succ, List.getD_cons_zero]

/-- Byte-rate field at offset 28 (24000 · 1 · 16 / 8). -/
lemma wavBytes_byteRate (pcm : List Nat) :
    readU32LE (wavBytes pcm) 28 = 48000 := by
  rw [wavBytes_flat]
  simp only [readU32LE, List.getD_cons_succ, List.getD_cons_zero]

/-- Block-align field at offset 32. -/
lemma wavBytes_blockAlign (pcm : List Nat) :
    readU16LE (wavBytes pcm) 32 = 2 := by
  rw [wavBytes_flat]
  rfl

/-- Bits-per-sample field at offset 34. -/
lemma wavBytes_bitsPerSample (pcm : List Nat) :
    readU16LE (wavBytes pcm) 34 = 16 := by
  rw [wavBytes_flat]
  rfl

/-- Data-size field at offset 40. -/
lemma wavBytes_dataSize (pcm : List Nat) (hc : 36 + pcm.length < 4294967296) :
    readU32LE (wavBytes pcm) 40 = pcm.length := by
  rw [wavBytes_flat]
  simp only [readU32LE, List.getD_cons_succ, List.getD_cons_zero]
  omega

/-- Payload bytes from offset 44. -/
lemma wavBytes_drop44 (pcm : List Nat) :
    (wavBytes pcm).drop 44 = pcm := by
  rw [wavBytes_flat]
  rfl

/-- C9 counterexample: for an input of `2^32 - 36` bytes — a length Node
buffers admit — `fileSize = 2^32` is out of `writeUInt32LE`'s range, so
`convertPCMToWAV` throws instead of returning a 44-byte-extended buffer;
the claim is false for this input. -/
theorem convertPCMToWAV_overflow_counterexample :
    convertPCMToWAV (List.replicate 4294967260 0) = .error "ERR_OUT_OF_RANGE" := by
  simp only [convertPCMToWAV, List.length_replicate]
  norm_num

/-- C9 (amended): for every input buffer whose length is at most
`2^32 - 37`, `convertPCMToWAV` returns a buffer exactly 44 bytes longer
whose first 4 bytes are `RIFF`, whose RIFF-size field at offset 4 is
`36 + length`, whose format fields encode 16-bit mono PCM at 24000 Hz
(byte rate 48000, block align 2), whose data-size field at offset 40 is
the input length, and whose bytes from offset 44 on are the input. -/
theorem convertPCMToWAV_header (pcm : List Nat)
    (h : pcm.length + 36 < 4294967296) :
    ∃ out, convertPCMToWAV pcm = .ok out ∧ out.length = pcm.length + 44 ∧
      out.take 4 = asciiBytes "RIFF" ∧ readU32LE out 4 = 36 + pcm.length ∧
      readU16LE out 20 = 1 ∧ readU16LE out 22 = 1 ∧
      readU32LE out 24 = 24000 ∧ readU32LE out 28 = 48000 ∧
      readU16LE out 32 = 2 ∧ readU16LE out 34 = 16 ∧
      readU32LE out 40 = pcm.length ∧ out.drop 44 = pcm := by
  have hc : 36 + pcm.length < 4294967296 := by omega
  exact ⟨wavBytes pcm, convertPCMToWAV_ok pcm hc, wavBytes_length pcm,
    wavBytes_take4 pcm, wavBytes_riffSize pcm hc, wavBytes_audioFormat pcm,
    wavBytes_numChannels pcm, wavBytes_sampleRate pcm, wavBytes_byteRate pcm,
    wavBytes_blockAlign pcm, wavBytes_bitsPerSample pcm,
    wavBytes_dataSize pcm hc, wavBytes_drop44 pcm⟩

/-- Witness for the amended C9 at a concrete three-byte input. -/
theorem convertPCMToWAV_header_witness :
    (([1, 2, 3] : List Nat).length + 36 < 4294967296) ∧
    (∃ out, convertPCMToWAV [1, 2, 3] = .ok out ∧
      out.length = ([1, 2, 3] : List Nat).length + 44 ∧
      out.take 4 = asciiBytes "RIFF" ∧
      readU32LE out 4 = 36 + ([1, 2, 3] : List Nat).length ∧
      readU16LE out 20 = 1 ∧ readU16LE out 22 = 1 ∧
      readU32LE out 24 = 24000 ∧ readU32LE out 28 = 48000 ∧
      readU16LE out 32 = 2 ∧ readU16LE out 34 = 16 ∧
      readU32LE out 40 = ([1, 2, 3] : List Nat).length ∧
      out.drop 44 = [1, 2, 3]) :=
  ⟨by norm_num, convertPCMToWAV_header [1, 2, 3] (by norm_num)⟩

/-! ## ComfyUI queue: affected save node and missing node_errors -/

/-- C3: when the `/prompt` response lists node-validation errors and some
error's dependent outputs include a configured `api_save` node, `queue`
issues an interrupt and rejects with the save-node error; and under the
environment assumption that an interrupted job emits no `executed` events
for this prompt id (`henv`), the save callback never fires on the
message trace. -/
theorem queue_interrupts_on_affected_save_node (api_save : List String)
    (st : Nat) (resp : SubmitResponse) (pid : String)
    (errs : List (String × NodeError)) (trace : List WSMessage)
    (hne : resp.node_errors = some errs)
    (haffected : saveNodeAffectedCheck api_save errs = true)
    (hpid : resp.prompt_id = some pid)
    (henv : ∀ m ∈ trace, m.prompt_id = some pid → m.type ≠ "executed") :
    (queue api_save true st resp).result = .error .saveNodeAffected ∧
    (queue api_save true st resp).interruptIssued = true ∧
    saveCallbackInvocations api_save pid trace = [] := by
  refine ⟨?_, ?_, ?_⟩
  · simp [queue, hne, haffected]
  · simp [queue, hne, haffected]
  · rw [saveCallbackInvocations, List.filter_eq_nil_iff]
    intro m hm
    have hm2 := henv m hm
    simp only [firesSaveCallback, Bool.and_eq_true, decide_eq_true_eq, not_and]
    rintro ⟨hmp, hmt⟩
    exact absurd hmt (hm2 hmp)

/-- Witness for C3: a response whose only node error lists the save node
`131` among its dependent outputs, with a trace holding a status message
for this job and an executed message for a different job. -/
theorem queue_interrupts_on_affected_save_node_witness :
    ((SubmitResponse.mk (some "p")
        (some [("5", { class_type := "LoadAudio",
                       dependent_outputs := some ["131"] })])).node_errors =
      some [("5", { class_type := "LoadAudio",
                    dependent_outputs := some ["131"] })]) ∧
    (saveNodeAffectedCheck ["131"]
      [("5", { class_type := "LoadAudio",
               dependent_outputs := some ["131"] })] = true) ∧
    ((SubmitResponse.mk (some "p")
        (some [("5", { class_type := "LoadAudio",
                       dependent_outputs := some ["131"] })])).prompt_id =
      some "p") ∧
    (∀ m ∈ [WSMessage.mk "status" (some "p") none,
            WSMessage.mk "executed" (some "q") (some "131")],
      m.prompt_id = some "p" → m.type ≠ "executed") ∧
    ((queue ["131"] true 200
        (SubmitResponse.mk (some "p")
          (some [("5", { class_type := "LoadAudio",
                         dependent_outputs := some ["131"] })]))).result =
      .error .saveNodeAffected ∧
     (queue ["131"] true 200
        (SubmitResponse.mk (some "p")
          (some [("5", { class_type := "LoadAudio",
                         dependent_outputs := some ["131"] })]))).interruptIssued =
      true ∧
     saveCallbackInvocations ["131"] "p"
       [WSMessage.mk "status" (some "p") none,
        WSMessage.mk "executed" (some "q") (some "131")] = []) :=
  ⟨rfl, by decide, rfl, by decide,
   queue_interrupts_on_affected_save_node ["131"] 200 _ "p" _ _ rfl (by decide)
     rfl (by decide)⟩

/-- C8: a submit response without a `node_errors` field makes `queue`
reject with the TypeError thrown by `Object.values(undefined)`, even though
the HTTP call succeeded and the prompt id was recorded; and any response
`queue` resolves successfully must carry a (possibly empty) `node_errors`
field. -/
theorem queue_rejects_missing_node_errors (api_save : List String) (st : Nat)
    (resp : SubmitResponse) (pid : String)
    (hne : resp.node_errors = none) (hpid : resp.prompt_id = some pid) :
    (queue api_save true st resp).result = .error .typeError ∧
    (queue api_save true st resp).promptId = some pid ∧
    (∀ r : SubmitResponse, (∃ v, (queue api_save true st r).result = .ok v) →
      r.node_errors.isSome = true) := by
  refine ⟨by simp [queue, hne], by simp [queue, hne, hpid], ?_⟩
  rintro r ⟨v, hv⟩
  cases hr : r.node_errors with
  | none => simp [queue, hr] at hv
  | some errs => rfl

/-- Witness for C8: a response with a prompt id but no `node_errors`. -/
theorem queue_rejects_missing_node_errors_witness :
    ((SubmitResponse.mk (some "p") none).node_errors = none) ∧
    ((SubmitResponse.mk (some "p") none).prompt_id = some "p") ∧
    ((queue ["131"] true 200 (SubmitResponse.mk (some "p") none)).result =
        .error .typeError ∧
      (queue ["131"] true 200 (SubmitResponse.mk (some "p") none)).promptId =
        some "p" ∧
      (∀ r : SubmitResponse,
        (∃ v, (queue ["131"] true 200 r).result = .ok v) →
        r.node_errors.isSome = true)) :=
  ⟨rfl, rfl, queue_rejects_missing_node_errors ["131"] 200 _ "p" rfl rfl⟩

/-! ## Chat-turn video stage -/

/-- The signing block leaves the video slot null when there is no video
reference. -/
lemma signUrlsBlock_video_none (sign : String → Except String String)
    (audioUrl userAudioUrl : Option String) :
    (signUrlsBlock sign audioUrl userAudioUrl none).videoUrl = none := by
  cases audioUrl with
  | none =>
    cases userAudioUrl with
    | none => rfl
    | some k2 => cases h : sign k2 <;> simp [signUrlsBlock, h]
  | some k =>
    cases h : sign k with
    | error e => simp [signUrlsBlock, h]
    | ok sa =>
      cases userAudioUrl with
      | none => simp [signUrlsBlock, h]
      | some k2 => cases h2 : sign k2 <;> simp [signUrlsBlock, h, h2]

/-- C5: the video-generation block runs exactly when the caller requested
video and speech synthesis produced an audio reference; and a failing
`generateVideo` call leaves the video reference null while the turn still
assembles its HTTP response — with a null video URL, the cleaned response
text, and the saved chat id. -/
theorem videoStage_guard_and_degradation (videoEnabled : Bool)
    (audioUrl : Option String) (audioFetch : Except String (List Nat))
    (imageUrl : Option String) (imageFetch : Except String (List Nat))
    (gen : Except String String) (message raw : String)
    (userAudioUrl : Option String) (sign : String → Except String String)
    (savedChatId : Option String) (currentChatId : String) :
    ((videoGenerationBlock videoEnabled audioUrl audioFetch imageUrl imageFetch
        gen).attempted = true ↔ (videoEnabled = true ∧ audioUrl ≠ none)) ∧
    (∀ e, gen = .error e →
      (videoGenerationBlock videoEnabled audioUrl audioFetch imageUrl imageFetch
        gen).videoUrl = none ∧
      (chatTurnFinish message raw audioUrl userAudioUrl
        (videoGenerationBlock videoEnabled audioUrl audioFetch imageUrl imageFetch
          gen) sign savedChatId currentChatId).videoUrl = none ∧
      (chatTurnFinish message raw audioUrl userAudioUrl
        (videoGenerationBlock videoEnabled audioUrl audioFetch imageUrl imageFetch
          gen) sign savedChatId currentChatId).responseText =
        cleanResponseText raw ∧
      (chatTurnFinish message raw audioUrl userAudioUrl
        (videoGenerationBlock videoEnabled audioUrl audioFetch imageUrl imageFetch
          gen) sign savedChatId currentChatId).chatId =
        savedChatId.getD currentChatId) := by
  have hvideo : ∀ e, gen = .error e →
      (videoGenerationBlock videoEnabled audioUrl audioFetch imageUrl imageFetch
        gen).videoUrl = none := by
    intro e hgen
    rw [videoGenerationBlock.eq_def]
    by_cases hg : videoEnabled && audioUrl.isSome
    · rw [if_pos hg]
      cases audioFetch with
      | error _ => rfl
      | ok _ =>
        cases imageUrl with
        | none => rfl
        | some _ =>
          cases imageFetch with
          | error _ => rfl
          | ok buf =>
            by_cases hb : buf.length < 1000 <;> simp [hb, hgen]
    · rw [if_neg hg]
  refine ⟨?_, ?_⟩
  · rw [videoGenerationBlock.eq_def]
    by_cases hg : videoEnabled && audioUrl.isSome
    · rw [if_pos hg]
      simp only [Bool.and_eq_true, Option.isSome_iff_ne_none] at hg
      simpa using hg
    · rw [if_neg hg]
      simp only [Bool.and_eq_true, Option.isSome_iff_ne_none] at hg
      simpa using hg
  · intro e hgen
    refine ⟨hvideo e hgen, ?_, rfl, rfl⟩
    simp only [chatTurnFinish, hvideo e hgen]
    exact signUrlsBlock_video_none sign audioUrl userAudioUrl

/-- Witness for C5: video requested, audio present, all fetches succeed,
but the Job Bridge call fails — the block was attempted yet the response is
assembled with a null video URL. -/
theorem videoStage_guard_and_degradation_witness :
    ((videoGenerationBlock true (some "u/c/a.pcm") (.ok [0])
        (some "img") (.ok (List.replicate 1000 0))
        (.error "ComfyUI execution failed")).attempted = true) ∧
    ((videoGenerationBlock true (some "u/c/a.pcm") (.ok [0])
        (some "img") (.ok (List.replicate 1000 0))
        (.error "ComfyUI execution failed")).videoUrl = none ∧
      (chatTurnFinish "hi" "hello" (some "u/c/a.pcm") none
        (videoGenerationBlock true (some "u/c/a.pcm") (.ok [0])
          (some "img") (.ok (List.replicate 1000 0))
          (.error "ComfyUI execution failed"))
        (fun k => .ok ("signed-" ++ k)) (some "c1") "c1").videoUrl = none ∧
      (chatTurnFinish "hi" "hello" (some "u/c/a.pcm") none
        (videoGenerationBlock true (some "u/c/a.pcm") (.ok [0])
          (some "img") (.ok (List.replicate 1000 0))
          (.error "ComfyUI execution failed"))
        (fun k => .ok ("signed-" ++ k)) (some "c1") "c1").responseText =
        cleanResponseText "hello" ∧
      (chatTurnFinish "hi" "hello" (some "u/c/a.pcm") none
        (videoGenerationBlock true (some "u/c/a.pcm") (.ok [0])
          (some "img") (.ok (List.replicate 1000 0))
          (.error "ComfyUI execution failed"))
        (fun k => .ok ("signed-" ++ k)) (some "c1") "c1").chatId =
        (some "c1").getD "c1") :=
  ⟨(videoStage_guard_and_degradation true (some "u/c/a.pcm") (.ok [0])
      (some "img") (.ok (List.replicate 1000 0))
      (.error "ComfyUI execution failed") "hi" "hello" none
      (fun k => .ok ("signed-" ++ k)) (some "c1") "c1").1.mpr
    ⟨rfl, by simp⟩,
   (videoStage_guard_and_degradation true (some "u/c/a.pcm") (.ok [0])
      (some "img") (.ok (List.replicate 1000 0))
      (.error "ComfyUI execution failed") "hi" "hello" none
      (fun k => .ok ("signed-" ++ k)) (some "c1") "c1").2
    "ComfyUI execution failed" rfl⟩

/-! ## Media-key endpoints -/

/-- A key that passes the endpoints' validation has the documented media
key shape. -/
lemma validAudioKeyCheck_shape (s3Key : String)
    (h : validAudioKeyCheck s3Key = true) : mediaKeyShape s3Key = true := by
  simp only [validAudioKeyCheck, Bool.and_eq_true, decide_eq_true_eq] at h
  simp only [mediaKeyShape, Bool.and_eq_true, Bool.or_eq_true, decide_eq_true_eq]
  exact ⟨h.1, Or.inl h.2⟩

/-- C6: both media endpoints accept a stored reference only when the key
has the promised three-segment `owner/chat/file.ext` shape (`.pcm`/`.mp4`),
and any key without that shape is answered with HTTP 400 — no signed URL
and no proxied bytes are produced. -/
theorem mediaKeyEndpoints_shape (sign : String → Except String String)
    (fetchS3 : String → Except String (Bool × Nat × List Nat)) (s3Key : String) :
    ((∃ u, signAudioEndpoint sign s3Key = .ok u) → mediaKeyShape s3Key = true) ∧
    ((∃ b, proxyAudioEndpoint sign fetchS3 s3Key = .ok b) →
      mediaKeyShape s3Key = true) ∧
    (mediaKeyShape s3Key = false →
      signAudioEndpoint sign s3Key = .clientError 400 "Invalid S3 key format" ∧
      proxyAudioEndpoint sign fetchS3 s3Key =
        .clientError 400 "Invalid S3 key format") := by
  by_cases hv : validAudioKeyCheck s3Key
  · refine ⟨fun _ => validAudioKeyCheck_shape s3Key hv,
      fun _ => validAudioKeyCheck_shape s3Key hv, fun hshape => ?_⟩
    exact absurd (validAudioKeyCheck_shape s3Key hv) (by simp [hshape])
  · have hv' : validAudioKeyCheck s3Key = false := by
      simpa using hv
    refine ⟨?_, ?_, fun _ => ?_⟩
    · rintro ⟨u, hu⟩
      simp [signAudioEndpoint, hv'] at hu
    · rintro ⟨b, hb⟩
      simp [proxyAudioEndpoint, hv'] at hb
    · exact ⟨by simp [signAudioEndpoint, hv'], by simp [proxyAudioEndpoint, hv']⟩

/-- Witness for C6: a wellformed key is signed (so the acceptance arrow has
a concrete instance), and a two-segment key is rejected with 400 by both
endpoints. -/
theorem mediaKeyEndpoints_shape_witness :
    (signAudioEndpoint (fun k => .ok ("signed-" ++ k)) "u1/c1/f.pcm" =
      .ok "signed-u1/c1/f.pcm" → mediaKeyShape "u1/c1/f.pcm" = true) ∧
    (mediaKeyShape "u1/f.pcm" = false) ∧
    (signAudioEndpoint (fun k => .ok ("signed-" ++ k)) "u1/f.pcm" =
      .clientError 400 "Invalid S3 key format" ∧
     proxyAudioEndpoint (fun k => .ok ("signed-" ++ k))
        (fun _ => .ok (true, 200, [1])) "u1/f.pcm" =
      .clientError 400 "Invalid S3 key format") :=
  ⟨fun h => (mediaKeyEndpoints_shape (fun k => .ok ("signed-" ++ k))
      (fun _ => .ok (true, 200, [1])) "u1/c1/f.pcm").1 ⟨_, h⟩,
   by decide,
   (mediaKeyEndpoints_shape (fun k => .ok ("signed-" ++ k))
      (fun _ => .ok (true, 200, [1])) "u1/f.pcm").2.2 (by decide)⟩

/-! ## Crawl polling loop termination -/

/-- The polling loop under a never-completing snapshot: by induction on the
remaining time, the loop reports the timeout error and issues at most
`k + ceil((maxWaitTime - elapsed) / pollInterval)` polls in total. -/
lemma waitForCrawlCompletion_pending (poll : Nat → SnapshotPoll)
    (delay : Nat → Nat) (hp : ∀ n, ∃ st, poll n = .pending st) :
    ∀ fuel k elapsed, maxWaitTime - elapsed ≤ fuel →
      (waitForCrawlCompletion poll delay k elapsed).result =
        .error "Crawl timeout: Results not ready within 60 seconds" ∧
      (waitForCrawlCompletion poll delay k elapsed).polls ≤
        k + (maxWaitTime - elapsed + (pollInterval - 1)) / pollInterval := by
  intro fuel
  induction fuel with
  | zero =>
    intro k elapsed hfuel
    have hel : ¬ elapsed < maxWaitTime := by omega
    rw [waitForCrawlCompletion, if_neg hel]
    refine ⟨rfl, ?_⟩
    show k ≤ k + (maxWaitTime - elapsed + (pollInterval - 1)) / pollInterval
    simp only [maxWaitTime, pollInterval]
    omega
  | succ fuel ih =>
    intro k elapsed hfuel
    by_cases hel : elapsed < maxWaitTime
    · obtain ⟨st, hpoll⟩ := hp k
      rw [waitForCrawlCompletion, if_pos hel, hpoll]
      have hrec := ih (k + 1) (elapsed + pollInterval + delay k)
        (by simp only [maxWaitTime, pollInterval] at *; omega)
      refine ⟨hrec.1, ?_⟩
      refine le_trans hrec.2 ?_
      simp only [maxWaitTime, pollInterval] at *
      omega
    · rw [waitForCrawlCompletion, if_neg hel]
      refine ⟨rfl, ?_⟩
      show k ≤ k + (maxWaitTime - elapsed + (pollInterval - 1)) / pollInterval
      simp only [maxWaitTime, pollInterval]
      omega

/-- C7: the crawl-status polling loop always terminates — when the
snapshot never reaches a terminal status it reports the timeout failure
after the 45-second deadline, having issued at most 15 polls (one per
3-second interval), rather than polling forever. -/
theorem waitForCrawlCompletion_timeout (poll : Nat → SnapshotPoll)
    (delay : Nat → Nat) (hp : ∀ n, ∃ st, poll n = .pending st) :
    (waitForCrawlCompletion poll delay 0 0).result =
      .error "Crawl timeout: Results not ready within 60 seconds" ∧
    (waitForCrawlCompletion poll delay 0 0).polls ≤ 15 := by
  have h := waitForCrawlCompletion_pending poll delay hp maxWaitTime 0 0
    (by omega)
  refine ⟨h.1, le_trans h.2 ?_⟩
  norm_num [maxWaitTime, pollInterval]

/-- Witness for C7: a snapshot that stays `running` forever. -/
theorem waitForCrawlCompletion_timeout_witness :
    (∀ n : Nat, ∃ st, (fun _ : Nat => SnapshotPoll.pending "running") n =
      .pending st) ∧
    ((waitForCrawlCompletion (fun _ => .pending "running") (fun _ => 0)
        0 0).result =
      .error "Crawl timeout: Results not ready within 60 seconds" ∧
     (waitForCrawlCompletion (fun _ => .pending "running") (fun _ => 0)
        0 0).polls ≤ 15) :=
  ⟨fun n => ⟨"running", rfl⟩,
   waitForCrawlCompletion_timeout (fun _ => .pending "running") (fun _ => 0)
     (fun n => ⟨"running", rfl⟩)⟩

/-! ## cleanResponseText: idempotence (scaffolding) -/

/-- One-step unfolding of the bracket scanner (definitional). -/
lemma replaceBracketTagsAux_step (fuel : Nat) (c : Char) (cs : List Char) :
    replaceBracketTagsAux (fuel + 1) (c :: cs) =
      (match bracketMatchLen (c :: cs) with
       | some n => ' ' :: replaceBracketTagsAux fuel (cs.drop (n - 1))
       | none => c :: replaceBracketTagsAux fuel cs) := rfl

/-- The bracket scanner ignores its fuel as long as the fuel covers the
input length. -/
lemma replaceBracketTagsAux_irrel :
    ∀ f1 l f2, l.length ≤ f1 → l.length ≤ f2 →
      replaceBracketTagsAux f1 l = replaceBracketTagsAux f2 l := by
  intro f1
  induction f1 with
  | zero =>
    intro l f2 h1 _
    have : l = [] := by
      cases l with
      | nil => rfl
      | cons c cs => simp at h1
    subst this
    cases f2 <;> rfl
  | succ f ih =>
    intro l f2 h1 h2
    cases l with
    | nil => cases f2 <;> rfl
    | cons c cs =>
      cases f2 with
      | zero => simp at h2
      | succ f2a =>
        rw [replaceBracketTagsAux_step, replaceBracketTagsAux_step]
        simp only [List.length_cons] at h1 h2
        cases hm : bracketMatchLen (c :: cs) with
        | some n =>
          have hd : (cs.drop (n - 1)).length ≤ cs.length := by
            simp [List.length_drop]
          exact congrArg (' ' :: ·) (ih _ _ (by omega) (by omega))
        | none =>
          exact congrArg (c :: ·) (ih _ _ (by omega) (by omega))

/-- Unfolding: the scanner on the empty list. -/
lemma replaceBracketTags_nil : replaceBracketTags [] = [] := rfl

/-- Unfolding: a match at the current position. -/
lemma replaceBracketTags_cons_some (c : Char) (cs : List Char) (n : Nat)
    (h : bracketMatchLen (c :: cs) = some n) :
    replaceBracketTags (c :: cs) = ' ' :: replaceBracketTags (cs.drop (n - 1)) := by
  show replaceBracketTagsAux (c :: cs).length (c :: cs) = _
  rw [List.length_cons, replaceBracketTagsAux_step, h]
  exact congrArg (' ' :: ·)
    (replaceBracketTagsAux_irrel cs.length _ _ (by simp [List.length_drop]) le_rfl)

/-- Unfolding: no match at the current position. -/
lemma replaceBracketTags_cons_none (c : Char) (cs : List Char)
    (h : bracketMatchLen (c :: cs) = none) :
    replaceBracketTags (c :: cs) = c :: replaceBracketTags cs := by
  show replaceBracketTagsAux (c :: cs).length (c :: cs) = _
  rw [List.length_cons, replaceBracketTagsAux_step, h]
  rfl

/-- Induction principle following the bracket scanner's recursion. -/
lemma replaceBracketTags_ind (motive : List Char → Prop) (h1 : motive [])
    (h2 : ∀ c cs n, bracketMatchLen (c :: cs) = some n →
      motive (cs.drop (n - 1)) → motive (c :: cs))
    (h3 : ∀ c cs, bracketMatchLen (c :: cs) = none → motive cs →
      motive (c :: cs)) :
    ∀ l, motive l := by
  have key : ∀ N l, l.length ≤ N → motive l := by
    intro N
    induction N with
    | zero =>
      intro l hl
      have : l = [] := by
        cases l with
        | nil => rfl
        | cons c cs => simp at hl
      subst this
      exact h1
    | succ N ih =>
      intro l hl
      cases l with
      | nil => exact h1
      | cons c cs =>
        simp only [List.length_cons] at hl
        cases hm : bracketMatchLen (c :: cs) with
        | some n =>
          exact h2 c cs n hm (ih _ (by simp [List.length_drop]; omega))
        | none => exact h3 c cs hm (ih _ (by omega))
  exact fun l => key l.length l le_rfl

/-- One-step unfolding of the whitespace scanner (definitional). -/
lemma normalizeWhitespaceAux_step (fuel : Nat) (c : Char) (cs : List Char) :
    normalizeWhitespaceAux (fuel + 1) (c :: cs) =
      (if isJsWhitespace c then
        ' ' :: normalizeWhitespaceAux fuel (cs.dropWhile isJsWhitespace)
       else c :: normalizeWhitespaceAux fuel cs) := rfl

/-- The whitespace scanner ignores its fuel as long as the fuel covers the
input length. -/
lemma normalizeWhitespaceAux_irrel :
    ∀ f1 l f2, l.length ≤ f1 → l.length ≤ f2 →
      normalizeWhitespaceAux f1 l = normalizeWhitespaceAux f2 l := by
  intro f1
  induction f1 with
  | zero =>
    intro l f2 h1 _
    have : l = [] := by
      cases l with
      | nil => rfl
      | cons c cs => simp at h1
    subst this
    cases f2 <;> rfl
  | succ f ih =>
    intro l f2 h1 h2
    cases l with
    | nil => cases f2 <;> rfl
    | cons c cs =>
      cases f2 with
      | zero => simp at h2
      | succ f2a =>
        rw [normalizeWhitespaceAux_step, normalizeWhitespaceAux_step]
        simp only [List.length_cons] at h1 h2
        by_cases hc : isJsWhitespace c
        · rw [if_pos hc, if_pos hc]
          have := (List.dropWhile_sublist (l := cs)
            (p := isJsWhitespace)).length_le
          exact congrArg (' ' :: ·) (ih _ _ (by omega) (by omega))
        · rw [if_neg hc, if_neg hc]
          exact congrArg (c :: ·) (ih _ _ (by omega) (by omega))

/-- Unfolding: the whitespace scanner on the empty list. -/
lemma normalizeWhitespace_nil : normalizeWhitespace [] = [] := rfl

/-- Unfolding: a whitespace character starts a run. -/
lemma normalizeWhitespace_cons_ws (c : Char) (cs : List Char)
    (h : isJsWhitespace c = true) :
    normalizeWhitespace (c :: cs) =
      ' ' :: normalizeWhitespace (cs.dropWhile isJsWhitespace) := by
  show normalizeWhitespaceAux (c :: cs).length (c :: cs) = _
  rw [List.length_cons, normalizeWhitespaceAux_step, if_pos h]
  have := (List.dropWhile_sublist (l := cs) (p := isJsWhitespace)).length_le
  exact congrArg (' ' :: ·)
    (normalizeWhitespaceAux_irrel cs.length _ _ (by omega) le_rfl)

/-- Unfolding: a non-whitespace character is kept. -/
lemma normalizeWhitespace_cons_not_ws (c : Char) (cs : List Char)
    (h : isJsWhitespace c = false) :
    normalizeWhitespace (c :: cs) = c :: normalizeWhitespace cs := by
  show normalizeWhitespaceAux (c :: cs).length (c :: cs) = _
  rw [List.length_cons, normalizeWhitespaceAux_step, if_neg (by simp [h])]
  rfl

/-- Induction principle following the whitespace scanner's recursion. -/
lemma normalizeWhitespace_ind (motive : List Char → Prop) (h1 : motive [])
    (h2 : ∀ c cs, isJsWhitespace c = true →
      motive (cs.dropWhile isJsWhitespace) → motive (c :: cs))
    (h3 : ∀ c cs, isJsWhitespace c = false → motive cs → motive (c :: cs)) :
    ∀ l, motive l := by
  have key : ∀ N l, l.length ≤ N → motive l := by
    intro N
    induction N with
    | zero =>
      intro l hl
      have : l = [] := by
        cases l with
        | nil => rfl
        | cons c cs => simp at hl
      subst this
      exact h1
    | succ N ih =>
      intro l hl
      cases l with
      | nil => exact h1
      | cons c cs =>
        simp only [List.length_cons] at hl
        by_cases hc : isJsWhitespace c
        · refine h2 c cs hc (ih _ ?_)
          have := (List.dropWhile_sublist (l := cs)
            (p := isJsWhitespace)).length_le
          omega
        · exact h3 c cs (by simpa using hc) (ih _ (by omega))
  exact fun l => key l.length l le_rfl

/-! ## cleanResponseText: idempotence (bracket-pair elimination) -/

/-- Dropping the length of the `takeWhile` prefix is `dropWhile`. -/
lemma drop_length_takeWhile (p : Char → Bool) (l : List Char) :
    l.drop (l.takeWhile p).length = l.dropWhile p := by
  nth_rewrite 2 [← List.takeWhile_append_dropWhile (p := p) (l := l)]
  rw [List.drop_left]

/-- The head of a nonempty `dropWhile` output fails the predicate. -/
lemma head_dropWhile_false (p : Char → Bool) :
    ∀ (l : List Char) (c : Char) (cs : List Char),
      l.dropWhile p = c :: cs → p c = false := by
  intro l
  induction l with
  | nil => intro c cs h; simp at h
  | cons a t ih =>
    intro c cs h
    by_cases hp : p a
    · rw [List.dropWhile_cons_of_pos hp] at h
      exact ih c cs h
    · rw [List.dropWhile_cons_of_neg hp] at h
      injection h with h1 _
      subst h1
      simpa using hp

/-- `dropWhile` is idempotent. -/
lemma dropWhile_dropWhile (p : Char → Bool) (l : List Char) :
    (l.dropWhile p).dropWhile p = l.dropWhile p := by
  cases h : l.dropWhile p with
  | nil => rfl
  | cons c cs =>
    exact List.dropWhile_cons_of_neg (by simp [head_dropWhile_false p l c cs h])

/-- Characters of the scanner output are spaces or input characters. -/
lemma replaceBracketTags_chars :
    ∀ l x, x ∈ replaceBracketTags l → x = ' ' ∨ x ∈ l := by
  refine replaceBracketTags_ind (fun l => ∀ x, x ∈ replaceBracketTags l →
    x = ' ' ∨ x ∈ l) ?_ ?_ ?_
  · intro x hx
    rw [replaceBracketTags_nil] at hx
    simp at hx
  · intro c cs n hm ih x hx
    rw [replaceBracketTags_cons_some c cs n hm] at hx
    rcases List.mem_cons.1 hx with h | h
    · exact Or.inl h
    · rcases ih x h with h2 | h2
      · exact Or.inl h2
      · exact Or.inr (List.mem_cons_of_mem c ((List.drop_sublist _ _).mem h2))
  · intro c cs hm ih x hx
    rw [replaceBracketTags_cons_none c cs hm] at hx
    rcases List.mem_cons.1 hx with h | h
    · exact Or.inr (h ▸ List.mem_cons_self c cs)
    · rcases ih x h with h2 | h2
      · exact Or.inl h2
      · exact Or.inr (List.mem_cons_of_mem c h2)

/-- Unfolding of `hasBracketPair` on a cons cell. -/
lemma hasBracketPair_cons (c : Char) (cs : List Char) :
    hasBracketPair (c :: cs) =
      ((c = '[' && cs.contains ']') || hasBracketPair cs) := rfl

/-- A closing bracket after an opening bracket yields a pair. -/
lemma hasBracketPair_append (pre after : List Char) (h : ']' ∈ after) :
    hasBracketPair (pre ++ '[' :: after) = true := by
  induction pre with
  | nil =>
    rw [List.nil_append, hasBracketPair_cons]
    simp
    exact Or.inl h
  | cons a t ih =>
    rw [List.cons_append, hasBracketPair_cons, ih]
    simp

/-- If a character occurs in a list, `dropWhile`-until-it reaches it. -/
lemma dropWhile_eq_cons_of_mem (x : Char) :
    ∀ l : List Char, x ∈ l → ∃ t, l.dropWhile (fun c => c ≠ x) = x :: t := by
  intro l
  induction l with
  | nil => intro h; simp at h
  | cons a t ih =>
    intro h
    by_cases hax : a = x
    · subst hax
      exact ⟨t, List.dropWhile_cons_of_neg (by simp)⟩
    · have hxt : x ∈ t := by
        rcases List.mem_cons.1 h with h1 | h1
        · exact absurd h1.symm hax
        · exact h1
      obtain ⟨t2, ht2⟩ := ih hxt
      exact ⟨t2, by rw [List.dropWhile_cons_of_pos (by simpa using hax), ht2]⟩

/-- A successful bracket match exhibits a bracket pair. -/
lemma bracketMatchLen_some_pair (l : List Char) (n : Nat)
    (h : bracketMatchLen l = some n) : hasBracketPair l = true := by
  unfold bracketMatchLen at h
  split at h
  · rename_i after heq
    split at h
    · rename_i after2 heq2
      rw [drop_length_takeWhile] at heq
      rw [drop_length_takeWhile] at heq2
      have hmem : ']' ∈ after := by
        have hsub : List.Sublist (']' :: after2) after := by
          rw [← heq2]
          exact List.dropWhile_sublist _
        exact hsub.mem (List.mem_cons_self _ _)
      have hdecomp : l = l.takeWhile isJsWhitespace ++ '[' :: after := by
        conv_lhs => rw [← List.takeWhile_append_dropWhile
          (p := isJsWhitespace) (l := l)]
        rw [heq]
      rw [hdecomp]
      exact hasBracketPair_append _ after hmem
    · exact absurd h (by simp)
  · exact absurd h (by simp)

/-- An opening bracket with a later closing bracket always matches. -/
lemma bracketMatchLen_lb_some (cs : List Char) (hin : ']' ∈ cs) :
    ∃ m, bracketMatchLen ('[' :: cs) = some m := by
  obtain ⟨t, ht⟩ := dropWhile_eq_cons_of_mem ']' cs hin
  unfold bracketMatchLen
  rw [List.takeWhile_cons_of_neg (by decide)]
  simp only [List.length_nil, List.drop_zero]
  rw [drop_length_takeWhile, ht]
  exact ⟨_, rfl⟩

/-- The scanner output never contains a bracket pair. -/
lemma replaceBracketTags_noPair :
    ∀ l, hasBracketPair (replaceBracketTags l) = false := by
  refine replaceBracketTags_ind
    (fun l => hasBracketPair (replaceBracketTags l) = false) ?_ ?_ ?_
  · show hasBracketPair (replaceBracketTags []) = false
    rw [replaceBracketTags_nil]
    rfl
  · intro c cs n hm ih
    rw [replaceBracketTags_cons_some c cs n hm, hasBracketPair_cons, ih]
    simp
  · intro c cs hm ih
    rw [replaceBracketTags_cons_none c cs hm, hasBracketPair_cons, ih]
    by_cases hc : c = '['
    · subst hc
      have hnotin : ']' ∉ cs := by
        intro hin
        obtain ⟨m, hmm⟩ := bracketMatchLen_lb_some cs hin
        rw [hm] at hmm
        simp at hmm
      have hnotout : ']' ∉ replaceBracketTags cs := by
        intro hin
        rcases replaceBracketTags_chars cs ']' hin with h1 | h1
        · simp at h1
        · exact hnotin h1
      simp only [Bool.false_or]
      simpa using hnotout
    · simp [hc]

/-- A pair-free list admits no bracket match anywhere at its head. -/
lemma bracketMatchLen_none_of_noPair (l : List Char)
    (h : hasBracketPair l = false) : bracketMatchLen l = none := by
  cases hm : bracketMatchLen l with
  | none => rfl
  | some n => exact absurd (bracketMatchLen_some_pair l n hm) (by simp [h])

/-- The scanner fixes every pair-free list. -/
lemma replaceBracketTags_id_of_noPair :
    ∀ l, hasBracketPair l = false → replaceBracketTags l = l := by
  refine replaceBracketTags_ind
    (fun l => hasBracketPair l = false → replaceBracketTags l = l) ?_ ?_ ?_
  · intro _
    exact replaceBracketTags_nil
  · intro c cs n hm _ hnp
    exact absurd (bracketMatchLen_some_pair _ n hm) (by simp [hnp])
  · intro c cs hm ih hnp
    rw [hasBracketPair_cons, Bool.or_eq_false_iff] at hnp
    rw [replaceBracketTags_cons_none c cs hm, ih hnp.2]

/-! ## cleanResponseText: idempotence (whitespace shape) -/

/-- Pair-freeness is preserved by `dropWhile`. -/
lemma hasBracketPair_dropWhile (p : Char → Bool) (l : List Char)
    (h : hasBracketPair l = false) :
    hasBracketPair (l.dropWhile p) = false := by
  induction l with
  | nil => simpa using h
  | cons c cs ih =>
    rw [hasBracketPair_cons, Bool.or_eq_false_iff] at h
    by_cases hp : p c
    · rw [List.dropWhile_cons_of_pos hp]
      exact ih h.2
    · rw [List.dropWhile_cons_of_neg hp, hasBracketPair_cons,
        Bool.or_eq_false_iff]
      exact h

/-- Pair-freeness is inherited by prefixes. -/
lemma hasBracketPair_append_left (l1 l2 : List Char)
    (h : hasBracketPair (l1 ++ l2) = false) : hasBracketPair l1 = false := by
  induction l1 with
  | nil => rfl
  | cons c t ih =>
    rw [List.cons_append, hasBracketPair_cons, Bool.or_eq_false_iff] at h
    rw [hasBracketPair_cons, Bool.or_eq_false_iff]
    refine ⟨?_, ih h.2⟩
    by_cases hc : c = '['
    · subst hc
      have h1 := h.1
      simp only [Bool.and_eq_false_iff] at h1 ⊢
      rcases h1 with h1 | h1
      · simp at h1
      · refine Or.inr ?_
        have : ']' ∉ t ++ l2 := by simpa using h1
        simpa using fun hmem => this (List.mem_append_left l2 hmem)
    · simp [hc]

/-- Characters of the whitespace-scanner output are spaces or input
characters. -/
lemma normalizeWhitespace_chars :
    ∀ l x, x ∈ normalizeWhitespace l → x = ' ' ∨ x ∈ l := by
  refine normalizeWhitespace_ind
    (fun l => ∀ x, x ∈ normalizeWhitespace l → x = ' ' ∨ x ∈ l) ?_ ?_ ?_
  · intro x hx
    rw [normalizeWhitespace_nil] at hx
    simp at hx
  · intro c cs hws ih x hx
    rw [normalizeWhitespace_cons_ws c cs hws] at hx
    rcases List.mem_cons.1 hx with h | h
    · exact Or.inl h
    · rcases ih x h with h2 | h2
      · exact Or.inl h2
      · exact Or.inr
          (List.mem_cons_of_mem c ((List.dropWhile_sublist _).mem h2))
  · intro c cs hws ih x hx
    rw [normalizeWhitespace_cons_not_ws c cs hws] at hx
    rcases List.mem_cons.1 hx with h | h
    · exact Or.inr (h ▸ List.mem_cons_self c cs)
    · rcases ih x h with h2 | h2
      · exact Or.inl h2
      · exact Or.inr (List.mem_cons_of_mem c h2)

/-- Pair-freeness is preserved by the whitespace scanner. -/
lemma hasBracketPair_normalizeWhitespace :
    ∀ l, hasBracketPair l = false →
      hasBracketPair (normalizeWhitespace l) = false := by
  refine normalizeWhitespace_ind (fun l => hasBracketPair l = false →
    hasBracketPair (normalizeWhitespace l) = false) ?_ ?_ ?_
  · intro _
    rw [normalizeWhitespace_nil]
    rfl
  · intro c cs hws ih h
    rw [hasBracketPair_cons, Bool.or_eq_false_iff] at h
    rw [normalizeWhitespace_cons_ws c cs hws, hasBracketPair_cons,
      ih (hasBracketPair_dropWhile _ cs h.2)]
    simp
  · intro c cs hws ih h
    rw [hasBracketPair_cons, Bool.or_eq_false_iff] at h
    rw [normalizeWhitespace_cons_not_ws c cs hws, hasBracketPair_cons,
      ih h.2, Bool.or_eq_false_iff]
    refine ⟨?_, rfl⟩
    by_cases hc : c = '['
    · subst hc
      have h1 := h.1
      simp only [Bool.and_eq_false_iff] at h1 ⊢
      rcases h1 with h1 | h1
      · simp at h1
      · refine Or.inr ?_
        have hnotin : ']' ∉ cs := by simpa using h1
        have hnotout : ']' ∉ normalizeWhitespace cs := by
          intro hin
          rcases normalizeWhitespace_chars cs ']' hin with h2 | h2
          · simp at h2
          · exact hnotin h2
        simpa using hnotout
    · simp [hc]

/-- The trimmed list together with the dropped suffix reassembles the
leading-whitespace-free list. -/
lemma trimChars_prefix (l : List Char) :
    ∃ rest, l.dropWhile isJsWhitespace = trimChars l ++ rest := by
  refine ⟨((l.dropWhile isJsWhitespace).reverse.takeWhile isJsWhitespace).reverse,
    ?_⟩
  rw [trimChars]
  conv_rhs => rw [← List.reverse_append, List.takeWhile_append_dropWhile,
    List.reverse_reverse]

/-- Pair-freeness is preserved by trimming. -/
lemma hasBracketPair_trimChars (l : List Char) (h : hasBracketPair l = false) :
    hasBracketPair (trimChars l) = false := by
  obtain ⟨rest, hr⟩ := trimChars_prefix l
  have h2 := hasBracketPair_dropWhile isJsWhitespace l h
  rw [hr] at h2
  exact hasBracketPair_append_left _ _ h2

/-- The head of the whitespace-scanner output is the input head, squashed
to a space if it was whitespace. -/
lemma normalizeWhitespace_head (l : List Char) :
    (normalizeWhitespace l).head? =
      l.head?.map fun c => if isJsWhitespace c then ' ' else c := by
  cases l with
  | nil => rfl
  | cons c cs =>
    by_cases hws : isJsWhitespace c
    · rw [normalizeWhitespace_cons_ws c cs hws]
      simp [hws]
    · rw [normalizeWhitespace_cons_not_ws c cs (by simpa using hws)]
      simp [hws]

/-- The whitespace scanner produces a normed list. -/
lemma normalizeWhitespace_normed : ∀ l, WsNormed (normalizeWhitespace l) := by
  refine normalizeWhitespace_ind (fun l => WsNormed (normalizeWhitespace l))
    ?_ ?_ ?_
  · show WsNormed (normalizeWhitespace [])
    rw [normalizeWhitespace_nil]
    exact ⟨by simp, List.chain'_nil⟩
  · intro c cs hws ih
    rw [normalizeWhitespace_cons_ws c cs hws]
    refine ⟨?_, ?_⟩
    · intro x hx _
      rcases List.mem_cons.1 hx with h | h
      · exact h
      · exact ih.1 x h (by assumption)
    · rw [List.chain'_cons']
      refine ⟨?_, ih.2⟩
      intro b hb
      rw [normalizeWhitespace_head] at hb
      cases hdw : (cs.dropWhile isJsWhitespace).head? with
      | none => rw [hdw] at hb; simp at hb
      | some d =>
        rw [hdw] at hb
        have hd : isJsWhitespace d = false := by
          cases hdd : cs.dropWhile isJsWhitespace with
          | nil => rw [hdd] at hdw; simp at hdw
          | cons e t =>
            rw [hdd] at hdw
            simp only [List.head?_cons, Option.some.injEq] at hdw
            exact hdw ▸ head_dropWhile_false isJsWhitespace cs e t hdd
        simp only [Option.mem_def, Option.map_some', Option.some.injEq,
          hd] at hb
        simp only [Bool.false_eq_true, if_false] at hb
        subst hb
        simp [hd]
  · intro c cs hws ih
    rw [normalizeWhitespace_cons_not_ws c cs hws]
    refine ⟨?_, ?_⟩
    · intro x hx hxws
      rcases List.mem_cons.1 hx with h | h
      · subst h
        rw [hws] at hxws
        cases hxws
      · exact ih.1 x h hxws
    · rw [List.chain'_cons']
      refine ⟨?_, ih.2⟩
      intro b _
      simp [hws]

/-- Normedness is inherited from the leading-whitespace-free list by its
trimmed prefix, hence by `trimChars` from the whitespace-scanner output. -/
lemma wsNormed_trimChars (l : List Char) (h : WsNormed l) :
    WsNormed (trimChars l) := by
  obtain ⟨rest, hr⟩ := trimChars_prefix l
  have hmem : ∀ c ∈ trimChars l, c ∈ l := by
    intro c hc
    have h1 : c ∈ l.dropWhile isJsWhitespace := by
      rw [hr]
      exact List.mem_append_left rest hc
    exact (List.dropWhile_sublist _).mem h1
  refine ⟨fun c hc hws => h.1 c (hmem c hc) hws, ?_⟩
  have hchain : (l.dropWhile isJsWhitespace).Chain'
      (fun a b => ¬(isJsWhitespace a = true ∧ isJsWhitespace b = true)) := by
    have hdecomp : l = l.takeWhile isJsWhitespace ++ l.dropWhile isJsWhitespace :=
      (List.takeWhile_append_dropWhile _ _).symm
    have h2 := h.2
    rw [hdecomp, List.chain'_append] at h2
    exact h2.2.1
  rw [hr, List.chain'_append] at hchain
  exact hchain.1

/-- The whitespace scanner fixes every normed list. -/
lemma normalizeWhitespace_id_of_normed :
    ∀ l, WsNormed l → normalizeWhitespace l = l := by
  intro l
  induction l with
  | nil => exact fun _ => normalizeWhitespace_nil
  | cons c cs ih =>
    rintro ⟨hall, hchain⟩
    by_cases hws : isJsWhitespace c
    · have hc : c = ' ' := hall c (List.mem_cons_self c cs) hws
      have hdrop : cs.dropWhile isJsWhitespace = cs := by
        cases cs with
        | nil => rfl
        | cons b t =>
          have hrel := (List.chain'_cons.1 hchain).1
          have hb : isJsWhitespace b = false := by
            by_contra hb2
            exact hrel ⟨hws, by simpa using hb2⟩
          exact List.dropWhile_cons_of_neg (by simp [hb])
      rw [normalizeWhitespace_cons_ws c cs hws, hdrop,
        ih ⟨fun x hx => hall x (List.mem_cons_of_mem c hx), hchain.tail⟩, hc]
    · rw [normalizeWhitespace_cons_not_ws c cs (by simpa using hws),
        ih ⟨fun x hx => hall x (List.mem_cons_of_mem c hx), hchain.tail⟩]

/-- Trimming is idempotent. -/
lemma trimChars_trimChars (l : List Char) :
    trimChars (trimChars l) = trimChars l := by
  have hrev : (trimChars l).reverse =
      (l.dropWhile isJsWhitespace).reverse.dropWhile isJsWhitespace := by
    rw [trimChars, List.reverse_reverse]
  have hdrop_rev : (trimChars l).reverse.dropWhile isJsWhitespace =
      (trimChars l).reverse := by
    rw [hrev]
    exact dropWhile_dropWhile _ _
  have hdrop : (trimChars l).dropWhile isJsWhitespace = trimChars l := by
    cases ht : trimChars l with
    | nil => rfl
    | cons h tt =>
      obtain ⟨rest, hr⟩ := trimChars_prefix l
      rw [ht] at hr
      have hhead : isJsWhitespace h = false := by
        have : l.dropWhile isJsWhitespace = h :: (tt ++ rest) := by
          rw [hr, List.cons_append]
        exact head_dropWhile_false isJsWhitespace l h (tt ++ rest) this
      exact List.dropWhile_cons_of_neg (by simp [hhead])
  rw [trimChars, hdrop, hdrop_rev, List.reverse_reverse]

/-- C10: `cleanResponseText` is idempotent — one pass of stripping
bracketed expression tags and normalising whitespace leaves no further
match of the bracket-removal pattern (and no denormalised whitespace), so
a second pass returns its input unchanged. -/
theorem cleanResponseText_idempotent (s : String) :
    cleanResponseText (cleanResponseText s) = cleanResponseText s := by
  by_cases hs : s = ""
  · simp [cleanResponseText, hs]
  · have hinner : cleanResponseText s = String.mk (trimChars
        (normalizeWhitespace (replaceBracketTags s.data))) := by
      rw [cleanResponseText, if_neg hs]
    rw [hinner]
    by_cases ht : String.mk (trimChars (normalizeWhitespace
        (replaceBracketTags s.data))) = ""
    · rw [cleanResponseText, if_pos ht]
    · rw [cleanResponseText, if_neg ht]
      refine congrArg String.mk ?_
      show trimChars (normalizeWhitespace (replaceBracketTags
        (trimChars (normalizeWhitespace (replaceBracketTags s.data))))) = _
      have hnp : hasBracketPair (trimChars (normalizeWhitespace
          (replaceBracketTags s.data))) = false :=
        hasBracketPair_trimChars _
          (hasBracketPair_normalizeWhitespace _ (replaceBracketTags_noPair _))
      rw [replaceBracketTags_id_of_noPair _ hnp]
      have hnormed : WsNormed (trimChars (normalizeWhitespace
          (replaceBracketTags s.data))) :=
        wsNormed_trimChars _ (normalizeWhitespace_normed _)
      rw [normalizeWhitespace_id_of_normed _ hnormed]
      exact trimChars_trimChars _

/-! ## Crawl parsing: the direct-data branch on NDJSON and single-document
payloads -/

/-- Unfolding of `splitChar` on a cons cell (definitional). -/
lemma splitChar_cons (sep c : Char) (l : List Char) :
    splitChar sep (c :: l) =
      (match splitChar sep l with
       | [] => [[]]
       | cur :: rest => if c = sep then [] :: cur :: rest
         else (c :: cur) :: rest) := rfl

/-- A split never produces the empty list of pieces. -/
lemma splitChar_ne_nil (sep : Char) : ∀ l : List Char, splitChar sep l ≠ [] := by
  intro l
  induction l with
  | nil => simp [splitChar]
  | cons c t ih =>
    rw [splitChar_cons]
    cases hs : splitChar sep t with
    | nil => exact absurd hs ih
    | cons x xs => by_cases hc : c = sep <;> simp [hc]

/-- Splitting a separator-free list yields the single piece. -/
lemma splitChar_no_sep (sep : Char) :
    ∀ p : List Char, sep ∉ p → splitChar sep p = [p] := by
  intro p
  induction p with
  | nil => intro _; rfl
  | cons c t ih =>
    intro h
    have hc : c ≠ sep := fun he => h (he ▸ List.mem_cons_self c t)
    have ht : sep ∉ t := fun hm => h (List.mem_cons_of_mem c hm)
    rw [splitChar_cons, ih ht]
    simp [hc]

/-- Splitting a list that starts with a separator-free piece followed by a
separator peels off that piece. -/
lemma splitChar_append (sep : Char) :
    ∀ p rest : List Char, sep ∉ p →
      splitChar sep (p ++ sep :: rest) = p :: splitChar sep rest := by
  intro p
  induction p with
  | nil =>
    intro rest _
    rw [List.nil_append, splitChar_cons]
    cases hs : splitChar sep rest with
    | nil => exact absurd hs (splitChar_ne_nil sep rest)
    | cons x xs => simp
  | cons c t ih =>
    intro rest h
    have hc : c ≠ sep := fun he => h (he ▸ List.mem_cons_self c t)
    have ht : sep ∉ t := fun hm => h (List.mem_cons_of_mem c hm)
    rw [List.cons_append, splitChar_cons, ih rest ht]
    simp [hc]

/-- Splitting the newline-join of newline-free pieces recovers the
pieces. -/
lemma splitChar_joinLines :
    ∀ pieces : List String, pieces ≠ [] →
      (∀ p ∈ pieces, '\n' ∉ p.data) →
      splitChar '\n' (joinLines pieces).data = pieces.map String.data := by
  intro pieces
  induction pieces with
  | nil => intro h _; exact absurd rfl h
  | cons p ps ih =>
    intro _ hnl
    cases ps with
    | nil =>
      show splitChar '\n' (joinLines [p]).data = [p.data]
      exact splitChar_no_sep '\n' p.data (hnl p (List.mem_cons_self p []))
    | cons q qs =>
      show splitChar '\n' (p ++ "\n" ++ joinLines (q :: qs)).data = _
      rw [String.data_append, String.data_append]
      have hnl2 : ("\n" : String).data ++ (joinLines (q :: qs)).data =
          '\n' :: (joinLines (q :: qs)).data := rfl
      rw [List.append_assoc, hnl2,
        splitChar_append '\n' p.data _ (hnl p (List.mem_cons_self p _)),
        ih (by simp) (fun r hr => hnl r (List.mem_cons_of_mem p hr))]
      rfl

/-- The newline-join of newline-free pieces splits back to the pieces. -/
lemma jsSplit_joinLines (pieces : List String) (hne : pieces ≠ [])
    (hnl : ∀ p ∈ pieces, '\n' ∉ p.data) :
    jsSplit '\n' (joinLines pieces) = pieces := by
  rw [jsSplit, splitChar_joinLines pieces hne hnl, List.map_map]
  have hid : (String.mk ∘ String.data) = id := funext fun s => rfl
  rw [hid, List.map_id]

/-- An empty-after-trim line never contributes a record. -/
lemma lineRecord_blank (line : String) (h : jsTrim line = "") :
    lineRecord line = none := by
  rw [lineRecord, h]
  rfl

/-- Dropping blank lines does not change the parsed records. -/
lemma filterMap_lineRecord_filter (lines : List String) :
    (lines.filter fun line => !(jsTrim line = "")).filterMap lineRecord =
      lines.filterMap lineRecord := by
  induction lines with
  | nil => rfl
  | cons l ls ih =>
    by_cases hb : jsTrim l = ""
    · rw [List.filter_cons, List.filterMap_cons, lineRecord_blank l hb]
      simp only [hb]
      simpa using ih
    · rw [List.filter_cons]
      simp only [hb]
      rw [List.filterMap_cons]
      cases hr : lineRecord l with
      | none => simpa [hr] using ih
      | some v => simpa [hr] using ih

/-- C4 counterexample: the payload `[{"post_id": "1"}]` — one JSON document
holding one record that carries a truthy `post_id` — makes the direct-data
branch fire (the text contains `"post_id"`), yet the branch returns zero
records: the single line parses to an array, whose `post_id` property is
`undefined`, so the record is discarded. The maximal parseable subset has
one record; the code yields none. -/
theorem crawlParsing_single_document_counterexample :
    statusDirectPosts "[\x7b\"post_id\": \"1\"\x7d]" = some [] ∧
    jsonParse "[\x7b\"post_id\": \"1\"\x7d]" =
      some (.arr [.obj [("post_id", .str "1")]]) ∧
    jsTruthy (getProp (.obj [("post_id", .str "1")]) "post_id") = true :=
  ⟨rfl, rfl, rfl⟩

/-- C4 (amended): for an NDJSON payload — newline-free pieces joined by
newlines, already trimmed, containing the `"post_id"` marker — the
direct-data branch of `waitForCrawlCompletion` returns exactly the records
of the individually parseable lines whose `post_id` is truthy, discarding
unparseable lines (in particular every parseable record is kept — the
subset is maximal for NDJSON); but a payload that is a single JSON array
document yields no records from this branch (see the counterexample); and
`crawlRedditNews` never throws: any pipeline failure produces a
`success = false` result with an empty article list. -/
theorem crawlParsing_ndjson_maximal (pieces : List String)
    (hne : pieces ≠ []) (hnl : ∀ p ∈ pieces, '\n' ∉ p.data)
    (htrim : jsTrim (joinLines pieces) = joinLines pieces)
    (hpid : jsIncludes (joinLines pieces) "\"post_id\"" = true) :
    statusDirectPosts (joinLines pieces) =
      some (pieces.filterMap lineRecord) ∧
    (∀ p ∈ pieces, ∀ v, jsonParse (jsTrim p) = some v →
      jsTruthy (getProp v "post_id") = true →
      v ∈ pieces.filterMap lineRecord) ∧
    (∀ (location e : String) (process : List Json → List Json),
      crawlRedditNews location (.error e) process =
        { success := false, location := location, articles := [] }) := by
  refine ⟨?_, ?_, fun location e process => rfl⟩
  · rw [statusDirectPosts, htrim, if_pos hpid, parseDirectPosts,
      jsSplit_joinLines pieces hne hnl, filterMap_lineRecord_filter]
  · intro p hp v hv htr
    refine List.mem_filterMap.2 ⟨p, hp, ?_⟩
    rw [lineRecord, hv]
    simp [htr]

/-- Witness for the amended C4: two lines, one valid record and one
unparseable fragment — the branch yields exactly the valid record. -/
theorem crawlParsing_ndjson_maximal_witness :
    ((["\x7b\"post_id\": \"a\"\x7d", "not json"] : List String) ≠ []) ∧
    (∀ p ∈ (["\x7b\"post_id\": \"a\"\x7d", "not json"] : List String),
      '\n' ∉ p.data) ∧
    (jsTrim (joinLines ["\x7b\"post_id\": \"a\"\x7d", "not json"]) =
      joinLines ["\x7b\"post_id\": \"a\"\x7d", "not json"]) ∧
    (jsIncludes (joinLines ["\x7b\"post_id\": \"a\"\x7d", "not json"])
      "\"post_id\"" = true) ∧
    (statusDirectPosts (joinLines ["\x7b\"post_id\": \"a\"\x7d", "not json"]) =
      some ((["\x7b\"post_id\": \"a\"\x7d", "not json"] :
        List String).filterMap lineRecord)) :=
  ⟨by simp, by decide, by decide, by decide,
   (crawlParsing_ndjson_maximal ["\x7b\"post_id\": \"a\"\x7d", "not json"]
     (by simp) (by decide) (by decide) (by decide)).1⟩

end AnchorAgent
